import Mathlib

/-! Verification of `montreal_forced_aligner/corpus/classes.py`

A shallow embedding of the corpus entity model (`Speaker`, `File`, `Utterance`,
the keyed `Collection`s), the annotation parser (`parse_file`, `File.load_text`)
and the annotation writer (`File.save`, `File.construct_output_path`), together
with theorems settling the specification claims about them.

Modelling conventions:
* Python strings are Lean `String`s; the character-level operations
  (`str.replace`, `str.split`, `str.strip`, `str.lower`, slicing,
  `os.path.basename` / `dirname` / `splitext` / `join`) are defined on
  `List Char` and wrapped.
* Python floats occurring as utterance boundaries are modelled as exact
  rationals (`ℚ`); `round(x, 4)` is modelled as round-half-to-even on the exact
  value, which is Python's documented rounding mode.  Binary floating point
  representation error is outside the model.
* Where a boundary value is interpolated into an f-string, the rendering of the
  numeric value is passed in explicitly (`render : ν → String`), the entity
  structures being parametric in the boundary type `ν`.  For the naming claims
  the boundary type `PyNum` carries the decimal shape of the Python value, so
  its `str` rendering is a function of the value.
* External collaborators (the sanitizer `parse_transcription`, the audio-info
  reader `get_wav_info`, the filesystem `os.path.exists`) are parameters
  (`tok`, `oracle`, `existsP`).
-/

namespace MfaCorpus

/-! ## Python string primitives -/

/-- Python `s.replace(pat, rep)` for a single-character pattern `pat`:
every occurrence of the character is replaced by `rep`, left to right. -/
def pyReplaceChar (pat : Char) (rep : List Char) : List Char → List Char
  | [] => []
  | a :: s => (if a = pat then rep else [a]) ++ pyReplaceChar pat rep s

/-- The substitution applied (twice) by `Utterance.name`
(`classes.py` lines 1036 and 1041):
`.replace(" ", "-space-").replace(".", "-").replace("_", "-")`. -/
def pySubChars (s : List Char) : List Char :=
  pyReplaceChar '_' ['-'] (pyReplaceChar '.' ['-']
    (pyReplaceChar ' ' "-space-".toList s))

/-- Python `str.lower()` (ASCII case folding; the labels and tier names in the
claims are ASCII). -/
def pyLower (s : String) : String :=
  ⟨s.toList.map Char.toLower⟩

/-- Python's notion of whitespace for `str.strip()` (ASCII part). -/
def pyIsSpace (c : Char) : Bool :=
  c = ' ' ∨ c = '\t' ∨ c = '\n' ∨ c = '\r' ∨ c = '\x0b' ∨ c = '\x0c'

/-- Python `str.strip()`: remove leading and trailing whitespace. -/
def pyStrip (s : String) : String :=
  ⟨((s.toList.dropWhile pyIsSpace).reverse.dropWhile pyIsSpace).reverse⟩

/-- Python `str.split(sep)` for a single-character separator. -/
def splitChar (sep : Char) : List Char → List (List Char)
  | [] => [[]]
  | a :: s =>
    if a = sep then [] :: splitChar sep s
    else
      match splitChar sep s with
      | g :: gs => (a :: g) :: gs
      | [] => [[a]]

/-- Python `s.split(sep)` (single-character separator), producing strings. -/
def pySplit (s : String) (sep : Char) : List String :=
  (splitChar sep s.toList).map List.asString

/-- Python `" ".join(words)`. -/
def joinSpace (ws : List String) : String :=
  String.intercalate " " ws

/-- Python slicing `s[:n]` (by code points). -/
def strTake (s : String) (n : Nat) : String :=
  ⟨s.toList.take n⟩

/-- Source: `os.path.basename` (POSIX): the part after the last `/`. -/
def pyBasename (s : String) : String :=
  ⟨(s.toList.reverse.takeWhile (fun c => ¬ c = '/')).reverse⟩

/-- Source: `os.path.dirname` (POSIX): the part before the last `/` (empty when there
is no `/`). -/
def pyDirname (s : String) : String :=
  let r := s.toList.reverse.dropWhile (fun c => ¬ c = '/')
  ⟨(r.drop 1).reverse⟩

/-- The stem part of `os.path.splitext(p)[0]`: everything before the last `.`
of the final path component; the whole path when that component has no dot or
when every character before its last dot is itself a dot (Python keeps
leading-dot names such as `.bashrc` whole). -/
def pySplitextStem (s : String) : String :=
  let revc := s.toList.reverse.takeWhile (fun c => ¬ c = '/')
  if revc.contains '.' then
    let stemRev := (revc.dropWhile (fun c => ¬ c = '.')).drop 1
    if stemRev.any (fun c => ¬ c = '.') then
      ⟨(stemRev ++ s.toList.reverse.dropWhile (fun c => ¬ c = '/')).reverse⟩
    else s
  else s

/-- Source: `os.path.join(a, b)` (POSIX, for a relative `b`). -/
def pyJoin (a b : String) : String :=
  if a = "" then b
  else if a.toList.getLast? = some '/' then a ++ b
  else a ++ "/" ++ b

/-- Python `s.replace(old, new)` for a general (non-empty) pattern: leftmost,
non-overlapping occurrences.  (The empty pattern, which Python treats by
inserting `new` between every pair of characters, does not occur in the code
paths modelled here and is mapped to the identity.)  Structural recursion on a
fuel argument, called with `fuel = s.length`, which every step maintains. -/
def replaceSubAux (pat rep : List Char) : Nat → List Char → List Char
  | _, [] => []
  | 0, s => s
  | fuel + 1, a :: s =>
    if pat.isPrefixOf (a :: s) ∧ pat ≠ [] then
      rep ++ replaceSubAux pat rep fuel ((a :: s).drop pat.length)
    else
      a :: replaceSubAux pat rep fuel s

/-- Python `s.replace(old, new)` on strings. -/
def pyReplaceStr (s pat rep : String) : String :=
  ⟨replaceSubAux pat.toList rep.toList s.toList.length s.toList⟩

/-! ## Decimal digits and Python numeric rendering -/

/-- Little-endian decimal digit extraction with a fuel argument (structural
recursion on the fuel, which is always called with `fuel ≥ n`). -/
def natDigitsAux : Nat → Nat → List (Fin 10)
  | _, 0 => []
  | 0, _ + 1 => []
  | fuel + 1, n + 1 =>
    ⟨(n + 1) % 10, Nat.mod_lt _ (by omega)⟩ :: natDigitsAux fuel ((n + 1) / 10)

/-- Little-endian decimal digits of a positive natural number
(empty for `0`). -/
def natDigitsRev (n : Nat) : List (Fin 10) :=
  natDigitsAux n n

/-- Big-endian decimal digits of a natural number, as Python's `str` prints
them (`0` prints as the single digit `0`). -/
def natDigits (n : Nat) : List (Fin 10) :=
  if n = 0 then [⟨0, by omega⟩] else (natDigitsRev n).reverse

/-- Value of a little-endian digit list. -/
def valRev : List (Fin 10) → Nat
  | [] => 0
  | d :: ds => d.val + 10 * valRev ds

/-- The character for a decimal digit. -/
def digitChar (d : Fin 10) : Char :=
  Char.ofNat (48 + d.val)

/-- A Python numeric value usable as an utterance boundary, carrying enough of
its shape to determine its `str` rendering:
* `pint n` is the Python `int` `n` (rendered as its decimal digits);
* `pfloat w f` is the Python `float` with whole part `w` and fractional digit
  list `f`, rendered `w.f` — Python's shortest-repr form for such a value
  (`str(5.2) = "5.2"`, `str(2.0) = "2.0"`).
Only non-negative values are modelled; utterance boundaries are times. -/
inductive PyNum where
  | pint (n : Nat)
  | pfloat (w : Nat) (f : List (Fin 10))
deriving DecidableEq

/-- The `str` rendering of a `PyNum`, as a character list. -/
def PyNum.renderChars : PyNum → List Char
  | .pint n => (natDigits n).map digitChar
  | .pfloat w f => (natDigits w).map digitChar ++ ['.'] ++ f.map digitChar

/-- The `str` rendering of a `PyNum`. -/
def PyNum.render (v : PyNum) : String :=
  ⟨v.renderChars⟩

/-- The rational value denoted by a `PyNum`. -/
def PyNum.toRat : PyNum → ℚ
  | .pint n => n
  | .pfloat w f => w + (valRev f.reverse : ℚ) / (10 : ℚ) ^ f.length

/-! ## The utterance naming algorithm (`Utterance.name`, lines 1032–1041) -/

/-- The first two steps of the `Utterance.name` computation: substitute the
file name, then prepend `"<speaker>-"` unless the result already starts with
it. -/
def uttBase (fileName speakerName : List Char) : List Char :=
  let base := pySubChars fileName
  if (speakerName ++ ['-']).isPrefixOf base then base
  else speakerName ++ ['-'] ++ base

/-- The identifier computation of the `Utterance.name` property, on character
lists.  `b` and `e` are the `str` renderings of `self.begin` / `self.end` when
those are not `None`; the boundary suffix is appended only when both are
present (`is_segment`), and the substitution is re-applied to the whole
result. -/
def uttNameChars (fileName speakerName : List Char)
    (b e : Option (List Char)) : List Char :=
  match b, e with
  | some bs, some es =>
    pySubChars (uttBase fileName speakerName ++ ['-'] ++ bs ++ ['-'] ++ es)
  | _, _ => pySubChars (uttBase fileName speakerName)

/-- The `Utterance.name` property as a string function; `b` and `e` are the
renderings of the boundary values (present exactly when the boundary is set,
the `is_segment` condition). -/
def uttName (fileName speakerName : String) (b e : Option String) : String :=
  ⟨uttNameChars fileName.toList speakerName.toList
    (b.map String.toList) (e.map String.toList)⟩

/-! ## The entity model: `Speaker`, `Utterance`, `File`

`Speaker`'s utterance collection, word-count table and dictionary collaborators
are not referenced by any verified claim and are omitted; the three fields kept
are exactly the ones the comparison methods, `File` and the snapshot/restore
methods (`__getstate__` / `__setstate__`) touch. -/

/-- The `Speaker` entity (`classes.py` lines 108–199). -/
structure Speaker where
  name : String
  cmvn : Option String
  dictionary_name : Option String
deriving DecidableEq

/-- An aligned interval (`CtmInterval` collaborator): start, end, label. -/
structure CtmInterval where
  begin : ℚ
  end_ : ℚ
  label : String
deriving DecidableEq

/-- The `Utterance` entity (`classes.py` lines 794–1041), parametric in the
boundary type `ν` (Python float).  The `file` object back-reference is cyclic
and cannot live inside an inductive model; the code's denormalized `file_name`
copy (which is what the `name` property reads) is kept.  The `speaker` object
reference is kept alongside the denormalized `speaker_name`. -/
structure Utterance (ν : Type) where
  speaker : Speaker
  file_name : String
  speaker_name : String
  begin : Option ν
  end_ : Option ν
  channel : Option Nat
  text : Option String
  transcription_text : Option String
  ignored : Bool
  features : Option String
  feature_length : Option Nat
  phone_labels : Option (List CtmInterval)
  word_labels : Option (List CtmInterval)
  oovs : List String
deriving DecidableEq

/-- Source: `Utterance.__init__(speaker, file, begin, end, channel, text)`:
the denormalized names are copied from the owning objects and every other
attribute starts empty/false. -/
def Utterance.init (speaker : Speaker) (fileName : String)
    (b e : Option ν) (channel : Option Nat) (text : Option String) :
    Utterance ν :=
  { speaker := speaker
    file_name := fileName
    speaker_name := speaker.name
    begin := b
    end_ := e
    channel := channel
    text := text
    transcription_text := none
    ignored := false
    features := none
    feature_length := none
    phone_labels := none
    word_labels := none
    oovs := [] }

/-- Source: `Utterance.is_segment`: both boundaries set. -/
def Utterance.is_segment (u : Utterance ν) : Bool :=
  u.begin.isSome && u.end_.isSome

/-- The `Utterance.name` property; `render` is Python's `str` on the boundary
type. -/
def Utterance.name (render : ν → String) (u : Utterance ν) : String :=
  uttName u.file_name u.speaker_name (u.begin.map render) (u.end_.map render)

/-- Source: `not utterance.phone_labels` — the Python truthiness test used by
`File.save`: `None` and the empty list are falsy. -/
def Utterance.phoneLabelsFalsy (u : Utterance ν) : Bool :=
  match u.phone_labels with
  | none => true
  | some l => l.isEmpty

/-- The audio-info record returned by the external `get_wav_info`
collaborator. -/
structure WavInfo where
  duration : ℚ
  sample_rate : Nat
  num_channels : Nat
  format : String
  sox_string : String
deriving DecidableEq

/-- The `File` entity (`classes.py` lines 299–791).  `utterances` models the
`UtteranceCollection`: an insertion-ordered association list keyed by
`Utterance.name`.  `speaker_ordering` entries are `Option Speaker` because
`File.add_speaker(utterance.speaker)` can in principle receive `None` (the
`save` method guards for a `None` speaker). -/
structure File (ν : Type) where
  wav_path : Option String
  text_path : Option String
  relative_path : Option String
  name : String
  wav_info : Option WavInfo
  waveform : Option (List ℚ)
  speaker_ordering : List (Option Speaker)
  utterances : List (String × Utterance ν)
  aligned : Bool
deriving DecidableEq

/-- Source: `File.__init__`: the name is the extension-stripped base name of whichever
of wav path / text path is present; construction fails when both are absent
(`CorpusError`). -/
def File.init (wav_path text_path relative_path : Option String) :
    Except String (File ν) :=
  match wav_path, text_path with
  | none, none => .error "File objects must have either a wav_path or text_path"
  | _, _ =>
    .ok
      { wav_path := wav_path
        text_path := text_path
        relative_path := relative_path
        name := pySplitextStem (pyBasename
          ((wav_path.or text_path).getD ""))
        wav_info := none
        waveform := none
        speaker_ordering := []
        utterances := []
        aligned := false }

/-! ### The keyed `Collection` (dict semantics)

A Python 3.7+ `dict`: assigning to an existing key replaces the value but
keeps the key's insertion position; assigning a new key appends; deleting a
missing key raises `KeyError`. -/

/-- Source: `Collection.__setitem__` / `add_utterance` keying. -/
def collAdd (key : String) (v : α) (l : List (String × α)) :
    List (String × α) :=
  if l.any (fun kv => kv.1 == key) then
    l.map (fun kv => if kv.1 == key then (key, v) else kv)
  else l ++ [(key, v)]

/-- Source: `Collection.__delitem__`: `KeyError` when the key is absent. -/
def collDel (key : String) (l : List (String × α)) :
    Except String (List (String × α)) :=
  if l.any (fun kv => kv.1 == key) then
    .ok (l.filter (fun kv => kv.1 != key))
  else .error "KeyError"

/-- The membership test Python's `speaker not in self.speaker_ordering`
performs on list entries: `Speaker.__eq__` compares names; `None` matches only
`None` (identity).  A mixed comparison of a `Speaker` with `None` raises
`TypeError` in Python (`Speaker.__eq__` rejects non-`Speaker` non-`str`
operands); such mixed orderings are unreachable in the modelled workflows and
the test is `false` here. -/
def speakerMatches (e z : Option Speaker) : Bool :=
  match e, z with
  | none, none => true
  | some a, some b => a.name == b.name
  | _, _ => false

/-- Source: `File.add_speaker`: append to `speaker_ordering` when not already
present. -/
def File.add_speaker (f : File ν) (s : Option Speaker) : File ν :=
  if f.speaker_ordering.any (fun e => speakerMatches e s) then f
  else { f with speaker_ordering := f.speaker_ordering ++ [s] }

/-- Source: `File.add_utterance`: key the utterance by its `name` into the collection,
then register its speaker. -/
def File.add_utterance (render : ν → String) (f : File ν) (u : Utterance ν) :
    File ν :=
  File.add_speaker
    { f with utterances := collAdd (u.name render) u f.utterances }
    (some u.speaker)

/-- Source: `File.delete_utterance`: delete by the utterance's name; the speaker
ordering is left untouched. -/
def File.delete_utterance (render : ν → String) (f : File ν)
    (u : Utterance ν) : Except String (File ν) :=
  (collDel (u.name render) f.utterances).map
    (fun us => { f with utterances := us })

/-! ### Lazily-loaded audio metadata -/

/-- Source: `File.load_info`: fetch the audio info when a wav path is present. -/
def File.load_info (oracle : String → WavInfo) (f : File ν) : File ν :=
  match f.wav_path with
  | some p => { f with wav_info := some (oracle p) }
  | none => f

/-- The `File.duration` property, with the caching mutation made explicit:
returns the value and the (possibly updated) file. -/
def File.durationSt (oracle : String → WavInfo) (f : File ν) :
    ℚ × File ν :=
  match f.wav_path with
  | none => (0, f)
  | some p =>
    match f.wav_info with
    | some i => (i.duration, f)
    | none => ((oracle p).duration, { f with wav_info := some (oracle p) })

/-- The value of the `File.duration` property (the cached and the freshly
loaded info agree because `get_wav_info` is a pure collaborator here). -/
def File.durationVal (oracle : String → WavInfo) (f : File ν) : ℚ :=
  match f.wav_path with
  | none => 0
  | some p => ((f.wav_info.getD (oracle p))).duration

/-- The value of the `File.num_channels` property. -/
def File.num_channelsVal (oracle : String → WavInfo) (f : File ν) : Nat :=
  match f.wav_path with
  | none => 0
  | some p => ((f.wav_info.getD (oracle p))).num_channels

/-- The value of the `File.sample_rate` property. -/
def File.sample_rateVal (oracle : String → WavInfo) (f : File ν) : Nat :=
  match f.wav_path with
  | none => 0
  | some p => ((f.wav_info.getD (oracle p))).sample_rate

/-! ## Snapshot / restore (`__getstate__` / `__setstate__`) -/

/-- The record `Speaker.__getstate__` produces (name, cmvn, dictionary
name). -/
structure SpeakerState where
  name : String
  cmvn : Option String
  dictionary_name : Option String
deriving DecidableEq

/-- Source: `Speaker.__getstate__`. -/
def Speaker.getstate (s : Speaker) : SpeakerState :=
  ⟨s.name, s.cmvn, s.dictionary_name⟩

/-- Source: `Speaker.__setstate__` (applied to a fresh `Speaker("")`). -/
def Speaker.setstate (st : SpeakerState) : Speaker :=
  ⟨st.name, st.cmvn, st.dictionary_name⟩

/-- The record `Utterance.__getstate__` produces: every field except the
`speaker` and `file` object references. -/
structure UtteranceState (ν : Type) where
  file_name : String
  speaker_name : String
  begin : Option ν
  end_ : Option ν
  channel : Option Nat
  text : Option String
  transcription_text : Option String
  oovs : List String
  ignored : Bool
  features : Option String
  feature_length : Option Nat
  phone_labels : Option (List CtmInterval)
  word_labels : Option (List CtmInterval)
deriving DecidableEq

/-- Source: `Utterance.__getstate__`. -/
def Utterance.getstate (u : Utterance ν) : UtteranceState ν :=
  ⟨u.file_name, u.speaker_name, u.begin, u.end_, u.channel, u.text,
    u.transcription_text, u.oovs, u.ignored, u.features, u.feature_length,
    u.phone_labels, u.word_labels⟩

/-- Source: `Utterance.__setstate__`; the `speaker` object reference is re-linked by
`File.__setstate__`'s name match and is passed in here (an utterance whose
speaker name matches no restored speaker is left without a `speaker` attribute
in Python, an unreachable state that is not modelled). -/
def Utterance.setstate (speaker : Speaker) (st : UtteranceState ν) :
    Utterance ν :=
  { speaker := speaker
    file_name := st.file_name
    speaker_name := st.speaker_name
    begin := st.begin
    end_ := st.end_
    channel := st.channel
    text := st.text
    transcription_text := st.transcription_text
    ignored := st.ignored
    features := st.features
    feature_length := st.feature_length
    phone_labels := st.phone_labels
    word_labels := st.word_labels
    oovs := st.oovs }

/-- The record `File.__getstate__` produces (`classes.py` lines 414–426):
note that it carries `wav_info` and `waveform` alongside the stable fields. -/
structure FileState (ν : Type) where
  name : String
  wav_path : Option String
  text_path : Option String
  relative_path : Option String
  aligned : Bool
  wav_info : Option WavInfo
  waveform : Option (List ℚ)
  speaker_ordering : List (Option SpeakerState)
  utterances : List (String × UtteranceState ν)
deriving DecidableEq

/-- Source: `File.__getstate__`. -/
def File.getstate (f : File ν) : FileState ν :=
  { name := f.name
    wav_path := f.wav_path
    text_path := f.text_path
    relative_path := f.relative_path
    aligned := f.aligned
    wav_info := f.wav_info
    waveform := f.waveform
    speaker_ordering := f.speaker_ordering.map (Option.map Speaker.getstate)
    utterances := f.utterances.map (fun kv => (kv.1, kv.2.getstate)) }

/-- Source: `File.__setstate__` (lines 428–448): fields are copied from the record,
speakers are rebuilt from their states, and the utterance collection is rebuilt
by re-adding each restored utterance (re-linking its speaker by name).  In
Python a `None` entry in the restored speaker ordering or an utterance whose
speaker matches no restored speaker crashes with `AttributeError`; those
unreachable states are skipped here. -/
def File.setstate (render : ν → String) (st : FileState ν) : File ν :=
  let ordering := st.speaker_ordering.map (Option.map Speaker.setstate)
  let base : File ν :=
    { wav_path := st.wav_path
      text_path := st.text_path
      relative_path := st.relative_path
      name := st.name
      wav_info := st.wav_info
      waveform := st.waveform
      speaker_ordering := ordering
      utterances := []
      aligned := st.aligned }
  st.utterances.foldl
    (fun f kv =>
      match (ordering.filterMap id).find?
          (fun s => s.name == kv.2.speaker_name) with
      | some s => f.add_utterance render (Utterance.setstate s kv.2)
      | none => f)
    base

/-! ## Comparison methods (`__eq__`, `__lt__`, `__gt__`)

The right-hand operand of a Python comparison: another entity of the same
kind, a bare string, or a value of any other type. -/

inductive CmpOther (α : Type) where
  | ent (a : α)
  | str (s : String)
  | other
deriving DecidableEq

/-- The `TypeError` the comparison methods raise on other operand types. -/
inductive CmpError where
  | typeMismatch
deriving DecidableEq

/-- Source: `Speaker.__eq__`. -/
def Speaker.eqPy (self : Speaker) : CmpOther Speaker → Except CmpError Bool
  | .ent o => .ok (o.name == self.name)
  | .str s => .ok (self.name == s)
  | .other => .error .typeMismatch

/-- Source: `Speaker.__lt__` — note the operand order on the entity branch:
`return other.name < self.name`. -/
def Speaker.ltPy (self : Speaker) : CmpOther Speaker → Except CmpError Bool
  | .ent o => .ok (decide (o.name < self.name))
  | .str s => .ok (decide (self.name < s))
  | .other => .error .typeMismatch

/-- Source: `Speaker.__gt__` — `return other.name > self.name` on the entity
branch. -/
def Speaker.gtPy (self : Speaker) : CmpOther Speaker → Except CmpError Bool
  | .ent o => .ok (decide (o.name > self.name))
  | .str s => .ok (decide (self.name > s))
  | .other => .error .typeMismatch

/-- Source: `File.__eq__`. -/
def File.eqPy (self : File ν) : CmpOther (File ν) → Except CmpError Bool
  | .ent o => .ok (o.name == self.name)
  | .str s => .ok (self.name == s)
  | .other => .error .typeMismatch

/-- Source: `File.__lt__` — `return other.name < self.name` on the entity branch. -/
def File.ltPy (self : File ν) : CmpOther (File ν) → Except CmpError Bool
  | .ent o => .ok (decide (o.name < self.name))
  | .str s => .ok (decide (self.name < s))
  | .other => .error .typeMismatch

/-- Source: `File.__gt__`. -/
def File.gtPy (self : File ν) : CmpOther (File ν) → Except CmpError Bool
  | .ent o => .ok (decide (o.name > self.name))
  | .str s => .ok (decide (self.name > s))
  | .other => .error .typeMismatch

/-- Source: `Utterance.__eq__` (the `name` property is computed). -/
def Utterance.eqPy (render : ν → String) (self : Utterance ν) :
    CmpOther (Utterance ν) → Except CmpError Bool
  | .ent o => .ok (o.name render == self.name render)
  | .str s => .ok (self.name render == s)
  | .other => .error .typeMismatch

/-- Source: `Utterance.__lt__` — `return other.name < self.name` on the entity
branch. -/
def Utterance.ltPy (render : ν → String) (self : Utterance ν) :
    CmpOther (Utterance ν) → Except CmpError Bool
  | .ent o => .ok (decide (o.name render < self.name render))
  | .str s => .ok (decide (self.name render < s))
  | .other => .error .typeMismatch

/-- Source: `Utterance.__gt__`. -/
def Utterance.gtPy (render : ν → String) (self : Utterance ν) :
    CmpOther (Utterance ν) → Except CmpError Bool
  | .ent o => .ok (decide (o.name render > self.name render))
  | .str s => .ok (decide (self.name render > s))
  | .other => .error .typeMismatch

/-! ## The annotation writer (`File.save`, `File.construct_output_path`) -/

/-- A praatio `Interval` as `save` constructs it: boundaries are passed through
from the utterance (possibly `None`), the label is the transcription text when
present, else the raw text. -/
structure OutInterval (ν : Type) where
  start : Option ν
  stop : Option ν
  label : Option String
deriving DecidableEq

/-- A praatio `IntervalTier` under construction. -/
structure OutTier (ν : Type) where
  name : String
  entries : List (OutInterval ν)
  minT : ℚ
  maxT : ℚ
deriving DecidableEq

/-- Assignment into the `tiers` dict of `save`.  The dict is keyed by the
`Speaker` object (hash/equality by name) or the string `"speech"`, and the key
always coincides with the tier's name, so the model keys by tier name:
overwriting keeps the insertion position, a new key appends. -/
def dictAddTier (acc : List (OutTier ν)) (t : OutTier ν) : List (OutTier ν) :=
  if acc.any (fun x => x.name == t.name) then
    acc.map (fun x => if x.name == t.name then t else x)
  else acc ++ [t]

/-- The tier-building loop of `save` (lines 480–484): one tier per entry of
`speaker_ordering`, named `"speech"` for a `None` entry and by the speaker's
name otherwise, each spanning `0 .. max_time`. -/
def buildTiers (ordering : List (Option Speaker)) (maxT : ℚ) :
    List (OutTier ν) :=
  ordering.foldl
    (fun acc os =>
      match os with
      | none => dictAddTier acc ⟨"speech", [], 0, maxT⟩
      | some s => dictAddTier acc ⟨s.name, [], 0, maxT⟩)
    []

/-- Source: `tiers[speaker].entryList.append(interval)`: append to the tier whose name
matches the key.  (Python raises `KeyError` when the key is missing, which
cannot happen while the `speaker_ordering` invariant holds; here the append is
then a no-op.) -/
def appendToTier (tiers : List (OutTier ν)) (key : String)
    (iv : OutInterval ν) : List (OutTier ν) :=
  tiers.map
    (fun t => if t.name == key then { t with entries := t.entries ++ [iv] }
              else t)

/-- The praatio `Interval` an utterance is written back as by `save`. -/
def outIv {ν : Type} (u : Utterance ν) : OutInterval ν :=
  ⟨u.begin, u.end_, u.transcription_text.or u.text⟩

/-- The tier contents `save` writes in its general (TextGrid) case: the tiers
from `speaker_ordering`, and — only when the file is not aligned — one interval
per utterance appended to its speaker's tier.  (An utterance's speaker object
is never `None` — `Utterance.__init__` dereferences it — so the `"speech"` key
fallback for a `None` speaker reduces to the speaker's name.) -/
def saveTierList (oracle : String → WavInfo) (f : File ν) :
    List (OutTier ν) :=
  let maxT := f.durationVal oracle
  let tiers := buildTiers f.speaker_ordering maxT
  f.utterances.foldl
    (fun acc kv =>
      if f.aligned then acc
      else
        appendToTier acc kv.2.speaker.name (outIv kv.2))
    tiers

/-- Source: `File.construct_output_path` (lines 547–586); `existsP` models
`os.path.exists` and the `makedirs` side effect is ignored.  When neither an
output directory nor a text path is given the wav path is present by the
`File` construction invariant (`getD ""` is dead). -/
def File.construct_output_path (existsP : String → Bool) (f : File ν)
    (output_directory backup_output_directory : Option String)
    (enforce_lab : Bool) : String :=
  let ext := if enforce_lab then ".lab" else ".TextGrid"
  match output_directory with
  | none =>
    match f.text_path with
    | none => pySplitextStem (f.wav_path.getD "") ++ ext
    | some tp => tp
  | some od =>
    let relative :=
      match f.relative_path with
      | some rp => if rp == "" then od else pyJoin od rp
      | none => od
    let tg_path := pyJoin relative (f.name ++ ext)
    match backup_output_directory with
    | some bd => if existsP tg_path then pyReplaceStr tg_path od bd else tg_path
    | none => tg_path

/-- What `File.save` writes: a plain transcript (`.lab`) file with its path
and content, or a TextGrid with its path and tier list. -/
inductive SaveOutput (ν : Type) where
  | lab (path : String) (content : Option String)
  | tgrid (path : String) (tiers : List (OutTier ν))
deriving DecidableEq

/-- The general (TextGrid) branch of `File.save`. -/
def File.saveTextGrid (oracle : String → WavInfo) (existsP : String → Bool)
    (f : File ν) (output_directory backup_output_directory : Option String) :
    SaveOutput ν :=
  .tgrid
    (f.construct_output_path existsP output_directory backup_output_directory
      false)
    (saveTierList oracle f)

/-- Source: `File.save` (lines 450–510): when the collection holds exactly one
utterance whose `begin` is `None` and whose phone labels are falsy, a plain
transcript is written (transcription text when present, else raw text) at the
lab-extension path; otherwise the TextGrid shape is written. -/
def File.save (oracle : String → WavInfo) (existsP : String → Bool)
    (f : File ν) (output_directory backup_output_directory : Option String) :
    SaveOutput ν :=
  match f.utterances with
  | [(_, u)] =>
    if u.begin.isNone && u.phoneLabelsFalsy then
      .lab
        (f.construct_output_path existsP output_directory
          backup_output_directory true)
        (u.transcription_text.or u.text)
    else f.saveTextGrid oracle existsP output_directory
      backup_output_directory
  | _ => f.saveTextGrid oracle existsP output_directory
      backup_output_directory

/-! ## The annotation parser (`File.load_text`, TextGrid branch, and the
speaker-attribution policy of `parse_file`) -/

/-- Round half to even (Python's `round`) to an integer, written out on the
numerator and denominator: with `fl = ⌊q⌋` and remainder `r` (`0 ≤ r < den`),
the value rounds down when the fractional part is below one half, up when
above, and to the even neighbour at exactly one half. -/
def rhe (q : ℚ) : ℤ :=
  let d : ℤ := (q.den : ℤ)
  let fl := Int.fdiv q.num d
  let r := Int.fmod q.num d
  if 2 * r = d then (if fl % 2 = 0 then fl else fl + 1)
  else if 2 * r < d then fl else fl + 1

/-- Python `round(x, 4)` on the exact rational value. -/
def round4 (q : ℚ) : ℚ :=
  (rhe (q * 10000) : ℚ) / 10000

/-- A tier of the parsed input document: name, whether it is an
`IntervalTier`, and its `(begin, end, label)` entries (empty intervals already
excluded, as the code opens the document with `includeEmptyIntervals=False`). -/
structure InTier where
  name : String
  isIntervalTier : Bool
  entries : List (ℚ × ℚ × String)
deriving DecidableEq

/-- The per-interval work of the TextGrid branch of `load_text`
(lines 641–653): lower-case and strip the label, tokenize (`tok` models
`parse_transcription` with the injected sanitizer), skip an interval whose
label tokenizes to nothing, round both boundaries to 4 places, clamp the end
to the file's duration, and build the utterance. -/
def entryStep (tok : String → List String) (dur : ℚ) (spk : Speaker)
    (fileName : String) (e : ℚ × ℚ × String) : Option (Utterance ℚ) :=
  let text := pyStrip (pyLower e.2.2)
  let words := tok text
  if words.isEmpty then none
  else
    some (Utterance.init spk fileName (some (round4 e.1))
      (some (min (round4 e.2.1) dur)) (some 0) (some (joinSpace words)))

/-- One iteration of the tier loop of the TextGrid branch (lines 629–653):
skip a tier named `"notes"` (case-insensitively) and any non-interval tier;
with no root speaker, derive the tier's speaker from its stripped name and
register it; then add one utterance per interval whose label tokenizes to a
non-empty word sequence. -/
def loadTextGridTier (tok : String → List String) (render : ℚ → String)
    (oracle : String → WavInfo) (rootSpeaker : Option Speaker)
    (f : File ℚ) (ti : InTier) : File ℚ :=
  if pyLower ti.name == "notes" then f
  else if ¬ ti.isIntervalTier then f
  else
    let sf : Speaker × File ℚ :=
      match rootSpeaker with
      | none =>
        let s : Speaker := ⟨pyStrip ti.name, none, none⟩
        (s, f.add_speaker (some s))
      | some r => (r, f)
    ti.entries.foldl
      (fun acc e =>
        match entryStep tok (acc.durationVal oracle) sf.1 acc.name e with
        | some u => acc.add_utterance render u
        | none => acc)
      sf.2

/-- The TextGrid branch of `File.load_text` (lines 614–653): zero tiers is a
parse error, more than two audio channels is an error, then every tier is
processed in document order.  The cooperative `stop_check` is modelled as
never signalling. -/
def loadTextGrid (tok : String → List String) (render : ℚ → String)
    (oracle : String → WavInfo) (f : File ℚ) (tg : List InTier)
    (rootSpeaker : Option Speaker) : Except String (File ℚ) :=
  if tg.length = 0 then .error "Number of tiers parsed was zero"
  else if 2 < f.num_channelsVal oracle then .error "More than two channels"
  else .ok (tg.foldl (loadTextGridTier tok render oracle rootSpeaker) f)

/-- The `speaker_characters` argument of `parse_file`: a Python `int` or
`str`. -/
inductive SpeakerPolicy where
  | pint (n : Nat)
  | pstr (s : String)
deriving DecidableEq

/-- The speaker-name derivation of `parse_file` (lines 76–92).  `root` is the
directory of the wav path when the sound file exists (`has_sound_file`), else
of the text path; a falsy policy (`0` or `""`) gives the base name of `root`,
an integer `N` the first `N` characters of the file identifier, the
`"prosodylab"` token the second underscore-delimited token of the identifier
(`none` models the `IndexError` when there is none), and any other non-empty
string the identifier unchanged.  `none` results model the `TypeError` Python
raises when the needed path is absent. -/
def speakerNameFromPolicy (existsP : String → Bool)
    (wav_path text_path : Option String) (file_name : String)
    (p : SpeakerPolicy) : Option String :=
  let hasSound :=
    match wav_path with
    | some wp => existsP wp
    | none => false
  let root : Option String :=
    if hasSound then wav_path.map pyDirname else text_path.map pyDirname
  match p with
  | .pint n =>
    if n = 0 then root.map pyBasename else some (strTake file_name n)
  | .pstr s =>
    if s = "" then root.map pyBasename
    else if s = "prosodylab" then (pySplit file_name '_').get? 1
    else some file_name

/-- The tiers `load_text` actually processes: interval tiers not named
`"notes"`. -/
def keptTiers (tg : List InTier) : List InTier :=
  tg.filter (fun ti => ti.isIntervalTier && !(pyLower ti.name == "notes"))

/-- The utterances one kept tier produces (with per-tier speaker, the
root-speaker-less case). -/
def tierUtts (tok : String → List String) (dur : ℚ) (fileName : String)
    (ti : InTier) : List (Utterance ℚ) :=
  ti.entries.filterMap
    (entryStep tok dur ⟨pyStrip ti.name, none, none⟩ fileName)

/-- The `File` state the TextGrid parse produces in the root-speaker-less
case (assuming fresh names and no key collisions; see `tierFold_eq`): one
speaker per kept tier, and the kept tiers' utterances keyed by name. -/
def parsedFile (tok : String → List String) (render : ℚ → String)
    (oracle : String → WavInfo) (f : File ℚ) (tg : List InTier) : File ℚ :=
  { f with
    speaker_ordering :=
      (keptTiers tg).map (fun ti => some ⟨pyStrip ti.name, none, none⟩)
    utterances :=
      ((keptTiers tg).map
        (tierUtts tok (f.durationVal oracle) f.name)).flatten.map
        (fun u => (u.name render, u)) }

/-- A mutation of a `File`'s utterance collection: `add_utterance` or
`delete_utterance`. -/
inductive FileOp (ν : Type) where
  | addU (u : Utterance ν)
  | delU (u : Utterance ν)

/-- Apply one mutation (`delete_utterance` of a missing identifier raises
`KeyError`). -/
def applyOp {ν : Type} (render : ν → String) (f : File ν) :
    FileOp ν → Except String (File ν)
  | .addU u => .ok (f.add_utterance render u)
  | .delU u => f.delete_utterance render u

/-- Apply a sequence of mutations, stopping at the first error. -/
def applyOps {ν : Type} (render : ν → String) (f : File ν) :
    List (FileOp ν) → Except String (File ν)
  | [] => .ok f
  | op :: rest => (applyOp render f op).bind (fun f2 => applyOps render f2 rest)

/-- The speakers of the added utterances, in operation order. -/
def addedSpeakers {ν : Type} (ops : List (FileOp ν)) : List Speaker :=
  ops.filterMap (fun op =>
    match op with
    | .addU u => some u.speaker
    | .delU _ => none)

/-- First-seen registration of speakers (the `add_speaker` fold). -/
def firstSeen (l0 : List (Option Speaker)) : List Speaker →
    List (Option Speaker)
  | [] => l0
  | s :: rest =>
    firstSeen
      (if l0.any (fun e => speakerMatches e (some s)) then l0
       else l0 ++ [some s])
      rest

/-- The names registered in a speaker ordering. -/
def orderingNames (l : List (Option Speaker)) : List String :=
  l.filterMap (fun o => o.map Speaker.name)

end MfaCorpus

/-! Theorems:

Helper lemmas first, then one theorem per claim (with witnesses and
counterexamples where required).
-/

namespace MfaCorpus

/-! ## String substitution lemmas -/

theorem pyReplaceChar_append (c : Char) (r xs ys : List Char) :
    pyReplaceChar c r (xs ++ ys) =
      pyReplaceChar c r xs ++ pyReplaceChar c r ys := by
  induction xs with
  | nil => rfl
  | cons a t ih => simp [pyReplaceChar, ih]

theorem pySubChars_append (xs ys : List Char) :
    pySubChars (xs ++ ys) = pySubChars xs ++ pySubChars ys := by
  simp [pySubChars, pyReplaceChar_append]

theorem pySubChars_nil : pySubChars [] = [] := rfl

theorem pySubChars_cons_plain {c : Char} (h1 : ¬ c = ' ') (h2 : ¬ c = '.')
    (h3 : ¬ c = '_') (xs : List Char) :
    pySubChars (c :: xs) = c :: pySubChars xs := by
  simp [pySubChars, pyReplaceChar, h1, h2, h3]

theorem pySubChars_cons_dot (xs : List Char) :
    pySubChars ('.' :: xs) = '-' :: pySubChars xs := by
  simp [pySubChars, pyReplaceChar]

theorem pySubChars_dash (xs : List Char) :
    pySubChars ('-' :: xs) = '-' :: pySubChars xs :=
  pySubChars_cons_plain (by decide) (by decide) (by decide) xs

/-! ## Digit lemmas -/

theorem digitChar_injective : Function.Injective digitChar := by decide

theorem digitChar_ne_dash (d : Fin 10) : ¬ digitChar d = '-' := by
  revert d; decide

theorem digitChar_plain (d : Fin 10) :
    ¬ digitChar d = ' ' ∧ ¬ digitChar d = '.' ∧ ¬ digitChar d = '_' := by
  revert d; decide

theorem pySubChars_map_digitChar (l : List (Fin 10)) :
    pySubChars (l.map digitChar) = l.map digitChar := by
  induction l with
  | nil => rfl
  | cons d t ih =>
    have h := digitChar_plain d
    simp only [List.map_cons]
    rw [pySubChars_cons_plain h.1 h.2.1 h.2.2, ih]

theorem dash_not_mem_map_digitChar (l : List (Fin 10)) :
    ¬ '-' ∈ l.map digitChar := by
  intro h
  rcases List.mem_map.mp h with ⟨d, _, hd⟩
  exact digitChar_ne_dash d hd

theorem valRev_natDigitsAux :
    ∀ (fuel n : Nat), n ≤ fuel → valRev (natDigitsAux fuel n) = n := by
  intro fuel
  induction fuel with
  | zero =>
    intro n h
    have : n = 0 := Nat.le_zero.mp h
    subst this
    rfl
  | succ f ih =>
    intro n h
    cases n with
    | zero => rfl
    | succ m =>
      have hdiv : (m + 1) / 10 ≤ f := by
        have h1 : (m + 1) / 10 < m + 1 := Nat.div_lt_self (by omega) (by omega)
        omega
      simp only [natDigitsAux, valRev, ih _ hdiv]
      omega

theorem valRev_natDigitsRev (n : Nat) : valRev (natDigitsRev n) = n :=
  valRev_natDigitsAux n n (Nat.le_refl n)

theorem natDigitsRev_injective : Function.Injective natDigitsRev := by
  intro m n h
  have := valRev_natDigitsRev m
  rw [h, valRev_natDigitsRev] at this
  exact this.symm

theorem natDigits_injective : Function.Injective natDigits := by
  intro m n h
  unfold natDigits at h
  by_cases hm : m = 0 <;> by_cases hn : n = 0 <;>
    simp [hm, hn] at h ⊢
  · -- m = 0, n ≠ 0 : [0] = (natDigitsRev n).reverse
    have h2 : natDigitsRev n = [⟨0, by omega⟩] := by
      have := congrArg List.reverse h
      simpa using this.symm
    have h3 := valRev_natDigitsRev n
    rw [h2] at h3
    simp [valRev] at h3
    omega
  · -- m ≠ 0, n = 0
    have h2 : natDigitsRev m = [⟨0, by omega⟩] := by
      have := congrArg List.reverse h
      simpa using this
    have h3 := valRev_natDigitsRev m
    rw [h2] at h3
    simp [valRev] at h3
    omega
  · exact natDigitsRev_injective h

theorem map_digitChar_injective {l l' : List (Fin 10)}
    (h : l.map digitChar = l'.map digitChar) : l = l' :=
  List.map_injective_iff.mpr digitChar_injective h

/-! ## Decomposing dash-joined suffixes -/

theorem append_dash_inj :
    ∀ {a a' b b' : List Char}, ¬ '-' ∈ a → ¬ '-' ∈ a' →
      a ++ '-' :: b = a' ++ '-' :: b' → a = a' ∧ b = b' := by
  intro a
  induction a with
  | nil =>
    intro a' b b' _ ha' h
    cases a' with
    | nil => simpa using h
    | cons y t =>
      simp only [List.nil_append, List.cons_append, List.cons.injEq] at h
      exact absurd (List.mem_cons_self y t) (h.1 ▸ ha')
  | cons x s ih =>
    intro a' b b' ha ha' h
    cases a' with
    | nil =>
      simp only [List.cons_append, List.nil_append, List.cons.injEq] at h
      exact absurd (h.1 ▸ List.mem_cons_self x s) ha
    | cons y t =>
      simp only [List.cons_append, List.cons.injEq] at h
      have hs : ¬ '-' ∈ s := fun hm => ha (List.mem_cons_of_mem x hm)
      have ht : ¬ '-' ∈ t := fun hm => ha' (List.mem_cons_of_mem y hm)
      rcases ih hs ht h.2 with ⟨h1, h2⟩
      exact ⟨by rw [h.1, h1], h2⟩

/-! ## The utterance name on segment boundaries -/

theorem uttNameChars_some_some (fn sn b e : List Char) :
    uttNameChars fn sn (some b) (some e) =
      pySubChars (uttBase fn sn) ++
        '-' :: (pySubChars b ++ '-' :: pySubChars e) := by
  show pySubChars (uttBase fn sn ++ ['-'] ++ b ++ ['-'] ++ e) = _
  have hassoc : uttBase fn sn ++ ['-'] ++ b ++ ['-'] ++ e =
      uttBase fn sn ++ '-' :: (b ++ '-' :: e) := by simp
  rw [hassoc, pySubChars_append, pySubChars_dash, pySubChars_append,
    pySubChars_dash]

theorem pySubChars_renderChars_pfloat (w : Nat) (f : List (Fin 10)) :
    pySubChars ((PyNum.pfloat w f).renderChars) =
      (natDigits w).map digitChar ++ '-' :: f.map digitChar := by
  show pySubChars ((natDigits w).map digitChar ++ ['.'] ++ f.map digitChar) = _
  rw [pySubChars_append, pySubChars_append, pySubChars_map_digitChar,
    pySubChars_map_digitChar, pySubChars_cons_dot, pySubChars_nil]
  simp

/-- Injectivity of the boundary suffix for float-rendered boundaries: when all
four boundary values render in Python's `whole.frac` float form, equal names
(for the same file and speaker names) force equal boundaries. -/
theorem uttNameChars_pfloat_inj (fn sn : List Char)
    (w1 w2 w1' w2' : Nat) (f1 f2 f1' f2' : List (Fin 10))
    (h : uttNameChars fn sn (some ((PyNum.pfloat w1 f1).renderChars))
          (some ((PyNum.pfloat w2 f2).renderChars)) =
        uttNameChars fn sn (some ((PyNum.pfloat w1' f1').renderChars))
          (some ((PyNum.pfloat w2' f2').renderChars))) :
    w1 = w1' ∧ f1 = f1' ∧ w2 = w2' ∧ f2 = f2' := by
  rw [uttNameChars_some_some, uttNameChars_some_some,
    pySubChars_renderChars_pfloat, pySubChars_renderChars_pfloat,
    pySubChars_renderChars_pfloat, pySubChars_renderChars_pfloat] at h
  have h1 := List.append_cancel_left h
  injection h1 with _ h2
  -- h2 : (W1 ++ '-' :: F1) ++ '-' :: (W2 ++ '-' :: F2) = ...
  rw [List.append_assoc, List.append_assoc, List.cons_append,
    List.cons_append] at h2
  rcases append_dash_inj (dash_not_mem_map_digitChar _)
      (dash_not_mem_map_digitChar _) h2 with ⟨hw1, h3⟩
  rcases append_dash_inj (dash_not_mem_map_digitChar _)
      (dash_not_mem_map_digitChar _) h3 with ⟨hf1, h4⟩
  rcases append_dash_inj (dash_not_mem_map_digitChar _)
      (dash_not_mem_map_digitChar _) h4 with ⟨hw2, hf2⟩
  exact ⟨natDigits_injective (map_digitChar_injective hw1),
    map_digitChar_injective hf1,
    natDigits_injective (map_digitChar_injective hw2),
    map_digitChar_injective hf2⟩

/-! ## Claim C1: utterance naming -/

/-- Claim C1 (amended).  The identifier of an `Utterance` is computed by the
stated substitution/prefix/suffix algorithm from exactly the four fields
(file name, speaker name, begin, end): (1) any two utterances agreeing on
those four fields get the identical identifier, whatever their other fields;
(2) two utterances (same file and speaker names) whose four boundary values
all render in Python's `whole.frac` float form and that differ in begin/end
get different identifiers.  (As stated the claim is false for boundaries
rendered without a decimal point — see the counterexample.) -/
theorem claim_C1_utterance_naming :
    (∀ u1 u2 : Utterance PyNum,
      u1.file_name = u2.file_name → u1.speaker_name = u2.speaker_name →
      u1.begin = u2.begin → u1.end_ = u2.end_ →
      u1.name PyNum.render = u2.name PyNum.render) ∧
    (∀ (u1 u2 : Utterance PyNum) (w1 w2 w1' w2' : Nat)
      (f1 f2 f1' f2' : List (Fin 10)),
      u1.file_name = u2.file_name → u1.speaker_name = u2.speaker_name →
      u1.begin = some (.pfloat w1 f1) → u1.end_ = some (.pfloat w2 f2) →
      u2.begin = some (.pfloat w1' f1') → u2.end_ = some (.pfloat w2' f2') →
      u1.name PyNum.render = u2.name PyNum.render →
      u1.begin = u2.begin ∧ u1.end_ = u2.end_) := by
  constructor
  · intro u1 u2 h1 h2 h3 h4
    simp [Utterance.name, h1, h2, h3, h4]
  · intro u1 u2 w1 w2 w1' w2' f1 f2 f1' f2' hf hs hb1 he1 hb2 he2 hname
    have hname' :
        uttName u2.file_name u2.speaker_name
            (some (PyNum.render (.pfloat w1 f1)))
            (some (PyNum.render (.pfloat w2 f2))) =
          uttName u2.file_name u2.speaker_name
            (some (PyNum.render (.pfloat w1' f1')))
            (some (PyNum.render (.pfloat w2' f2'))) := by
      simpa [Utterance.name, hf, hs, hb1, he1, hb2, he2] using hname
    have hlists :
        uttNameChars u2.file_name.toList u2.speaker_name.toList
            (some ((PyNum.pfloat w1 f1).renderChars))
            (some ((PyNum.pfloat w2 f2).renderChars)) =
          uttNameChars u2.file_name.toList u2.speaker_name.toList
            (some ((PyNum.pfloat w1' f1').renderChars))
            (some ((PyNum.pfloat w2' f2').renderChars)) :=
      congrArg String.data hname'
    rcases uttNameChars_pfloat_inj _ _ _ _ _ _ _ _ _ _ hlists with
      ⟨e1, e2, e3, e4⟩
    rw [hb1, hb2, he1, he2, e1, e2, e3, e4]
    exact ⟨rfl, rfl⟩

/-- Claim C1 witness: both parts of the theorem applied at concrete inputs. -/
theorem claim_C1_witness :
    (Utterance.init (⟨"s", none, none⟩ : Speaker) "x_y"
        (some (PyNum.pfloat 0 [5])) (some (PyNum.pfloat 1 [0])) (some 0)
        none).name PyNum.render =
      (Utterance.init (⟨"s", some "c", none⟩ : Speaker) "x_y"
        (some (PyNum.pfloat 0 [5])) (some (PyNum.pfloat 1 [0])) (some 0)
        (some "t")).name PyNum.render ∧
    (Utterance.init (⟨"s", none, none⟩ : Speaker) "f"
        (some (PyNum.pfloat 2 [5])) (some (PyNum.pfloat 3 [0])) (some 0)
        none).begin =
      (Utterance.init (⟨"s", none, none⟩ : Speaker) "f"
        (some (PyNum.pfloat 2 [5])) (some (PyNum.pfloat 3 [0])) (some 0)
        none).begin :=
  ⟨claim_C1_utterance_naming.1 _ _ rfl rfl rfl rfl,
    (claim_C1_utterance_naming.2 _ _ 2 3 2 3 [5] [0] [5] [0]
      rfl rfl rfl rfl rfl rfl rfl).1⟩

/-- Claim C1 counterexample: two utterances of the same file and speaker with
numerically different boundary pairs — begin/end `(1, 5.2)` versus
`(1.5, 2)` — receive the *same* identifier `"s-f-1-5-2"`, because integer
renderings recombine with the dash separators.  This refutes the claim's
"two utterances differing only in begin/end yield different identifiers". -/
theorem claim_C1_counterexample :
    (Utterance.init (⟨"s", none, none⟩ : Speaker) "f" (some (PyNum.pint 1))
        (some (PyNum.pfloat 5 [2])) (some 0) none).name PyNum.render =
      (Utterance.init (⟨"s", none, none⟩ : Speaker) "f"
        (some (PyNum.pfloat 1 [5])) (some (PyNum.pint 2)) (some 0)
        none).name PyNum.render ∧
    ¬ (PyNum.pint 1).toRat = (PyNum.pfloat 1 [5]).toRat ∧
    ¬ (PyNum.pfloat 5 [2]).toRat = (PyNum.pint 2).toRat := by
  have hval : ∀ d : Fin 10, valRev [d] = d.val := by
    intro d; simp [valRev]
  have hn5 : ((5 : Fin 10) : ℕ) = 5 := rfl
  have hn2 : ((2 : Fin 10) : ℕ) = 2 := rfl
  have hv5 : (((5 : Fin 10) : ℕ) : ℚ) = 5 := by rw [hn5]; norm_num
  have hv2 : (((2 : Fin 10) : ℕ) : ℚ) = 2 := by rw [hn2]; norm_num
  have h15 : (PyNum.pfloat 1 [5]).toRat = 3 / 2 := by
    simp only [PyNum.toRat, List.reverse_cons, List.reverse_nil,
      List.nil_append, hval, List.length_cons, List.length_nil, hv5]
    norm_num
  have h52 : (PyNum.pfloat 5 [2]).toRat = 26 / 5 := by
    simp only [PyNum.toRat, List.reverse_cons, List.reverse_nil,
      List.nil_append, hval, List.length_cons, List.length_nil, hv2]
    norm_num
  have h1 : (PyNum.pint 1).toRat = 1 := by norm_num [PyNum.toRat]
  have h2 : (PyNum.pint 2).toRat = 2 := by norm_num [PyNum.toRat]
  refine ⟨by decide, ?_, ?_⟩
  · rw [h1, h15]; norm_num
  · rw [h52, h2]; norm_num


/-! ## Projection lemmas for the `File` operations -/

theorem Utterance.setstate_speaker {ν : Type} (s : Speaker)
    (st : UtteranceState ν) : (Utterance.setstate s st).speaker = s := rfl

/-- Source: `File.add_utterance` written as a single structure update. -/
theorem add_utterance_eq {ν : Type} (render : ν → String) (f : File ν)
    (u : Utterance ν) :
    f.add_utterance render u =
      { f with
        utterances := collAdd (u.name render) u f.utterances
        speaker_ordering :=
          if f.speaker_ordering.any
              (fun e => speakerMatches e (some u.speaker)) then
            f.speaker_ordering
          else f.speaker_ordering ++ [some u.speaker] } := by
  simp only [File.add_utterance, File.add_speaker]
  split <;> rfl

theorem any_speakerMatches_of_mem {l : List (Option Speaker)} {s : Speaker}
    (h : some s ∈ l) : l.any (fun e => speakerMatches e (some s)) = true :=
  List.any_eq_true.mpr ⟨some s, h, by simp [speakerMatches]⟩

/-- Adding an utterance whose speaker is already registered (by name identity)
only changes the utterance collection. -/
theorem add_utterance_of_mem {ν : Type} (render : ν → String) (f : File ν)
    (u : Utterance ν) (h : some u.speaker ∈ f.speaker_ordering) :
    f.add_utterance render u =
      { f with utterances := collAdd (u.name render) u f.utterances } := by
  rw [add_utterance_eq, any_speakerMatches_of_mem h, if_pos rfl]

/-! ## Claim C6: comparison methods -/

/-- Claim C6 (amended).  Equality and ordering of `Speaker`, `File` and
`Utterance` are determined by `name` alone and comparison with a bare string
compares the entity's name with that string, while comparison with any other
type raises a type-mismatch error — but the order comparisons *between two
entities* are reversed with respect to the claim: `x < y` returns
`y.name < x.name` (and `x > y` returns `y.name > x.name`), not the comparison
of the first entity's name with the second's. -/
theorem claim_C6_comparisons :
    (∀ s o : Speaker, s.eqPy (.ent o) = .ok true ↔ o.name = s.name) ∧
    (∀ s o : Speaker, s.ltPy (.ent o) = .ok true ↔ o.name < s.name) ∧
    (∀ s o : Speaker, s.gtPy (.ent o) = .ok true ↔ s.name < o.name) ∧
    (∀ (s : Speaker) (t : String), s.eqPy (.str t) = .ok true ↔ s.name = t) ∧
    (∀ (s : Speaker) (t : String), s.ltPy (.str t) = .ok true ↔ s.name < t) ∧
    (∀ (s : Speaker) (t : String), s.gtPy (.str t) = .ok true ↔ t < s.name) ∧
    (∀ s : Speaker, s.eqPy .other = .error .typeMismatch ∧
      s.ltPy .other = .error .typeMismatch ∧
      s.gtPy .other = .error .typeMismatch) ∧
    (∀ s o : File ℚ, s.eqPy (.ent o) = .ok true ↔ o.name = s.name) ∧
    (∀ s o : File ℚ, s.ltPy (.ent o) = .ok true ↔ o.name < s.name) ∧
    (∀ s o : File ℚ, s.gtPy (.ent o) = .ok true ↔ s.name < o.name) ∧
    (∀ (s : File ℚ) (t : String), s.eqPy (.str t) = .ok true ↔ s.name = t) ∧
    (∀ (s : File ℚ) (t : String), s.ltPy (.str t) = .ok true ↔ s.name < t) ∧
    (∀ (s : File ℚ) (t : String), s.gtPy (.str t) = .ok true ↔ t < s.name) ∧
    (∀ s : File ℚ, s.eqPy .other = .error .typeMismatch ∧
      s.ltPy .other = .error .typeMismatch ∧
      s.gtPy .other = .error .typeMismatch) ∧
    (∀ s o : Utterance PyNum, s.eqPy PyNum.render (.ent o) = .ok true ↔
      o.name PyNum.render = s.name PyNum.render) ∧
    (∀ s o : Utterance PyNum, s.ltPy PyNum.render (.ent o) = .ok true ↔
      o.name PyNum.render < s.name PyNum.render) ∧
    (∀ s o : Utterance PyNum, s.gtPy PyNum.render (.ent o) = .ok true ↔
      s.name PyNum.render < o.name PyNum.render) ∧
    (∀ (s : Utterance PyNum) (t : String),
      s.eqPy PyNum.render (.str t) = .ok true ↔ s.name PyNum.render = t) ∧
    (∀ (s : Utterance PyNum) (t : String),
      s.ltPy PyNum.render (.str t) = .ok true ↔ s.name PyNum.render < t) ∧
    (∀ (s : Utterance PyNum) (t : String),
      s.gtPy PyNum.render (.str t) = .ok true ↔ t < s.name PyNum.render) ∧
    (∀ s : Utterance PyNum,
      s.eqPy PyNum.render .other = .error .typeMismatch ∧
      s.ltPy PyNum.render .other = .error .typeMismatch ∧
      s.gtPy PyNum.render .other = .error .typeMismatch) := by
  refine ⟨?_, ?_, ?_, ?_, ?_, ?_, ?_, ?_, ?_, ?_, ?_, ?_, ?_, ?_, ?_, ?_, ?_,
      ?_, ?_, ?_, ?_⟩ <;>
    intros <;>
    simp [Speaker.eqPy, Speaker.ltPy, Speaker.gtPy, File.eqPy, File.ltPy,
      File.gtPy, Utterance.eqPy, Utterance.ltPy, Utterance.gtPy, gt_iff_lt]

/-- Claim C6 counterexample: between two `Speaker`s, `__lt__` compares the names
in the *reversed* order — `Speaker("a") < Speaker("b")` evaluates `"b" < "a"`
and returns `False` even though `"a" < "b"` holds, refuting "comparing two
entities of the same kind gives the same result as comparing the first
entity's name to the second entity's name". -/
theorem claim_C6_counterexample :
    Speaker.ltPy ⟨"a", none, none⟩ (.ent ⟨"b", none, none⟩) = .ok false ∧
    ("a" : String) < "b" := by
  constructor
  · have hba : ¬ (("b" : String) < "a") := by
      intro h
      have h2 := String.lt_iff_toList_lt.mp h
      revert h2
      decide
    show Except.ok (decide (("b" : String) < "a")) = Except.ok false
    rw [decide_eq_false hba]
  · exact String.lt_iff_toList_lt.mpr (by decide)

/-! ## Claim C3: the `File` snapshot record -/

/-- Source: `Speaker.__setstate__ ∘ Speaker.__getstate__` is the identity. -/
theorem speaker_state_roundtrip (s : Speaker) :
    Speaker.setstate (Speaker.getstate s) = s := by
  cases s; rfl

theorem speaker_ordering_roundtrip (l : List (Option Speaker)) :
    (l.map (Option.map Speaker.getstate)).map (Option.map Speaker.setstate)
      = l := by
  induction l with
  | nil => rfl
  | cons o t ih =>
    cases o with
    | none => simpa using ih
    | some s => simp [speaker_state_roundtrip, ih]

/-- The utterance-restoring fold of `File.__setstate__` changes only the
utterance collection: every re-added speaker is found in the ordering by name,
so `add_speaker` is a no-op and all other fields are untouched. -/
theorem restore_fold_eta {ν : Type} (render : ν → String)
    (ordering : List (Option Speaker)) :
    ∀ (us : List (String × UtteranceState ν)) (acc : File ν),
      acc.speaker_ordering = ordering →
      us.foldl
        (fun f kv =>
          match (ordering.filterMap id).find?
              (fun s => s.name == kv.2.speaker_name) with
          | some s => f.add_utterance render (Utterance.setstate s kv.2)
          | none => f)
        acc =
      { acc with
        utterances :=
          (us.foldl
            (fun f kv =>
              match (ordering.filterMap id).find?
                  (fun s => s.name == kv.2.speaker_name) with
              | some s => f.add_utterance render (Utterance.setstate s kv.2)
              | none => f)
            acc).utterances } := by
  intro us
  induction us with
  | nil => intro acc _; rfl
  | cons kv rest ih =>
    intro acc hacc
    rcases hfind : (ordering.filterMap id).find?
        (fun s => s.name == kv.2.speaker_name) with _ | s
    · simp only [List.foldl_cons, hfind]
      exact ih acc hacc
    · have hmem : some s ∈ acc.speaker_ordering := by
        rw [hacc]
        have hmem1 : s ∈ ordering.filterMap id :=
          List.mem_of_find?_eq_some hfind
        rcases List.mem_filterMap.mp hmem1 with ⟨o, ho, hid⟩
        cases o with
        | none => simp [id] at hid
        | some x =>
          simp only [id] at hid
          exact hid ▸ ho
      have hstep :
          acc.add_utterance render (Utterance.setstate s kv.2) =
            { acc with
              utterances := collAdd ((Utterance.setstate s kv.2).name render)
                (Utterance.setstate s kv.2) acc.utterances } :=
        add_utterance_of_mem render acc (Utterance.setstate s kv.2)
          (by rw [Utterance.setstate_speaker]; exact hmem)
      simp only [List.foldl_cons, hfind, hstep]
      exact ih _ (by simpa using hacc)

/-- Claim C3 (amended).  The snapshot record of a `File` carries the stable
fields *and also* the lazily-loaded audio metadata (`wav_info`) and the
decoded waveform verbatim, and restoring from the record puts those two values
back verbatim rather than leaving them to be recomputed; the stable fields and
the speaker ordering survive the round trip unchanged. -/
theorem claim_C3_snapshot {ν : Type} (render : ν → String) (f : File ν) :
    (f.getstate).wav_info = f.wav_info ∧
    (f.getstate).waveform = f.waveform ∧
    (File.setstate render f.getstate).wav_info = f.wav_info ∧
    (File.setstate render f.getstate).waveform = f.waveform ∧
    (File.setstate render f.getstate).name = f.name ∧
    (File.setstate render f.getstate).wav_path = f.wav_path ∧
    (File.setstate render f.getstate).text_path = f.text_path ∧
    (File.setstate render f.getstate).relative_path = f.relative_path ∧
    (File.setstate render f.getstate).aligned = f.aligned ∧
    (File.setstate render f.getstate).speaker_ordering =
      f.speaker_ordering := by
  have hr :
      File.setstate render f.getstate =
        { wav_path := (f.getstate).wav_path
          text_path := (f.getstate).text_path
          relative_path := (f.getstate).relative_path
          name := (f.getstate).name
          wav_info := (f.getstate).wav_info
          waveform := (f.getstate).waveform
          speaker_ordering :=
            (f.getstate).speaker_ordering.map (Option.map Speaker.setstate)
          utterances := (File.setstate render f.getstate).utterances
          aligned := (f.getstate).aligned } :=
    restore_fold_eta render
      ((f.getstate).speaker_ordering.map (Option.map Speaker.setstate))
      (f.getstate).utterances
      { wav_path := (f.getstate).wav_path
        text_path := (f.getstate).text_path
        relative_path := (f.getstate).relative_path
        name := (f.getstate).name
        wav_info := (f.getstate).wav_info
        waveform := (f.getstate).waveform
        speaker_ordering :=
          (f.getstate).speaker_ordering.map (Option.map Speaker.setstate)
        utterances := []
        aligned := (f.getstate).aligned }
      rfl
  refine ⟨rfl, rfl, ?_, ?_, ?_, ?_, ?_, ?_, ?_, ?_⟩ <;> rw [hr]
  · rfl
  · rfl
  · rfl
  · rfl
  · rfl
  · rfl
  · rfl
  · exact speaker_ordering_roundtrip f.speaker_ordering

/-- Claim C3 witness: the theorem applied to a concrete file whose audio
metadata and waveform are loaded. -/
theorem claim_C3_witness :
    (File.getstate
      (⟨some "d/a.wav", some "d/a.lab", none, "a",
        some ⟨3, 16000, 1, "wav", ""⟩, some [1, 0], [], [],
        false⟩ : File ℚ)).wav_info = some ⟨3, 16000, 1, "wav", ""⟩ :=
  (claim_C3_snapshot (fun _ => "")
    (⟨some "d/a.wav", some "d/a.lab", none, "a",
      some ⟨3, 16000, 1, "wav", ""⟩, some [1, 0], [], [],
      false⟩ : File ℚ)).1

/-- Claim C3 counterexample: for a concrete `File` with loaded audio metadata
and waveform, the snapshot record *contains* both values (they are not
excluded), and restoring puts them back instead of leaving them to be
recomputed. -/
theorem claim_C3_counterexample :
    (File.getstate
      (⟨some "d/a.wav", none, none, "a", some ⟨3, 16000, 1, "wav", ""⟩,
        some [1, 0], [], [], false⟩ : File ℚ)).wav_info =
      some ⟨3, 16000, 1, "wav", ""⟩ ∧
    (File.getstate
      (⟨some "d/a.wav", none, none, "a", some ⟨3, 16000, 1, "wav", ""⟩,
        some [1, 0], [], [], false⟩ : File ℚ)).waveform = some [1, 0] ∧
    (File.setstate (fun _ => "")
      (File.getstate
        (⟨some "d/a.wav", none, none, "a", some ⟨3, 16000, 1, "wav", ""⟩,
          some [1, 0], [], [], false⟩ : File ℚ))).wav_info =
      some ⟨3, 16000, 1, "wav", ""⟩ := by
  exact ⟨rfl, rfl, rfl⟩

/-! ## Claim C2: the tiers built by `File.save` -/

theorem dictAddTier_of_not_mem {ν : Type} (acc : List (OutTier ν))
    (t : OutTier ν) (h : ¬ t.name ∈ acc.map OutTier.name) :
    dictAddTier acc t = acc ++ [t] := by
  unfold dictAddTier
  rw [if_neg]
  simp only [List.any_eq_true, not_exists]
  intro x
  intro hx
  rcases hx with ⟨hmem, hbeq⟩
  exact h (List.mem_map.mpr ⟨x, hmem, eq_of_beq hbeq⟩)

theorem buildTiers_fold {ν : Type} (spks : List Speaker) :
    ∀ (acc : List (OutTier ν)) (maxT : ℚ),
      (acc.map OutTier.name ++ spks.map Speaker.name).Nodup →
      (spks.map some).foldl
        (fun acc os =>
          match os with
          | none => dictAddTier acc ⟨"speech", [], 0, maxT⟩
          | some s => dictAddTier acc ⟨s.name, [], 0, maxT⟩)
        acc =
      acc ++ spks.map (fun s => ⟨s.name, [], 0, maxT⟩) := by
  induction spks with
  | nil =>
    intro acc maxT _
    simp
  | cons s t ih =>
    intro acc maxT h
    simp only [List.map_cons, List.foldl_cons]
    have hs : ¬ (⟨s.name, [], 0, maxT⟩ : OutTier ν).name ∈
        acc.map OutTier.name := by
      intro hmem
      have hd : (acc.map OutTier.name).Disjoint (s.name :: t.map Speaker.name) :=
        List.disjoint_of_nodup_append h
      exact hd hmem (List.mem_cons_self _ _)
    rw [dictAddTier_of_not_mem acc _ hs]
    have hnd : ((acc ++ [(⟨s.name, [], 0, maxT⟩ : OutTier ν)]).map
        OutTier.name ++ t.map Speaker.name).Nodup := by
      simpa [List.append_assoc] using h
    rw [ih (acc ++ [(⟨s.name, [], 0, maxT⟩ : OutTier ν)]) maxT hnd]
    simp

/-- Claim C2 (amended).  In the general (TextGrid) case `save` builds, for a
`speaker_ordering` of distinct (by name) speakers, exactly one tier per
speaker, in order, named by the speaker and spanning `0 .. duration`; a
`None` entry in `speaker_ordering` yields a tier named `"speech"`; but when
`speaker_ordering` is *empty* the tier-building loop builds **no** tier at all
(the claimed single `"speech"` tier arises only from a `None` entry, never
from emptiness). -/
theorem claim_C2_save_tiers :
    (∀ (oracle : String → WavInfo) (existsP : String → Bool) (f : File ℚ)
      (od bd : Option String),
      f.utterances = [] →
      f.save oracle existsP od bd =
        .tgrid (f.construct_output_path existsP od bd false)
          (buildTiers f.speaker_ordering (f.durationVal oracle))) ∧
    (∀ (spks : List Speaker) (maxT : ℚ),
      (spks.map Speaker.name).Nodup →
      (buildTiers (spks.map some) maxT : List (OutTier ℚ)) =
        spks.map (fun s => ⟨s.name, [], 0, maxT⟩)) ∧
    (∀ maxT : ℚ,
      (buildTiers [none] maxT : List (OutTier ℚ)) = [⟨"speech", [], 0, maxT⟩]) ∧
    (∀ maxT : ℚ,
      (buildTiers ([] : List (Option Speaker)) maxT : List (OutTier ℚ)) = []) := by
  refine ⟨?_, ?_, ?_, ?_⟩
  · intro oracle existsP f od bd hutt
    unfold File.save
    rw [hutt]
    unfold File.saveTextGrid saveTierList
    rw [hutt]
    rfl
  · intro spks maxT h
    have := buildTiers_fold (ν := ℚ) spks [] maxT (by simpa using h)
    simpa [buildTiers] using this
  · intro maxT
    rfl
  · intro maxT
    rfl

/-- Claim C2 witness: the theorem applied at concrete inputs (one concrete
two-speaker file with no utterances). -/
theorem claim_C2_witness :
    File.save (fun _ => ⟨7, 16000, 1, "wav", ""⟩) (fun _ => false)
      (⟨some "d/a.wav", some "d/a.TextGrid", none, "a",
        some ⟨7, 16000, 1, "wav", ""⟩, none,
        [some ⟨"alice", none, none⟩, some ⟨"bob", none, none⟩], [],
        false⟩ : File ℚ) none none =
      .tgrid "d/a.TextGrid"
        (buildTiers [some ⟨"alice", none, none⟩, some ⟨"bob", none, none⟩]
          ((⟨some "d/a.wav", some "d/a.TextGrid", none, "a",
            some ⟨7, 16000, 1, "wav", ""⟩, none,
            [some ⟨"alice", none, none⟩, some ⟨"bob", none, none⟩], [],
            false⟩ : File ℚ).durationVal (fun _ => ⟨7, 16000, 1, "wav", ""⟩))) ∧
    (buildTiers [some ⟨"alice", none, none⟩, some ⟨"bob", none, none⟩]
        (7 : ℚ) : List (OutTier ℚ)) =
      [⟨"alice", [], 0, 7⟩, ⟨"bob", [], 0, 7⟩] :=
  ⟨claim_C2_save_tiers.1 (fun _ => ⟨7, 16000, 1, "wav", ""⟩) (fun _ => false)
      _ none none rfl,
    by
      have h := claim_C2_save_tiers.2.1
        [⟨"alice", none, none⟩, ⟨"bob", none, none⟩] (7 : ℚ)
        (by simp [Speaker.name])
      simpa using h⟩

/-- Claim C2 counterexample: a `File` whose `speaker_ordering` is empty is saved
(general case) as a TextGrid with **zero** tiers — there is no `"speech"`
tier, refuting "when speaker_ordering is empty it builds a single tier named
speech". -/
theorem claim_C2_counterexample :
    File.save (fun _ => ⟨10, 16000, 1, "wav", ""⟩) (fun _ => false)
      (⟨some "d/a.wav", some "d/a.TextGrid", none, "a",
        some ⟨10, 16000, 1, "wav", ""⟩, none, [], [],
        false⟩ : File ℚ) none none = .tgrid "d/a.TextGrid" [] := rfl

/-! ## Claim C9: the speaker-attribution policy of `parse_file` -/

/-- Claim C9.  The speaker-attribution policy of `parse_file` maps: a falsy
policy (`0` or `""`) to the base name of the parent directory of the wav path
when the sound file exists, else of the text path; a positive integer `N` to
the first `N` characters of the file identifier; `"prosodylab"` to the second
underscore-delimited token of the identifier; and any other non-empty string
to the identifier unchanged — with the three concrete examples of the
specification. -/
theorem claim_C9_speaker_attribution :
    (∀ (existsP : String → Bool) (wp : String) (tp : Option String)
      (fn : String), existsP wp = true →
      speakerNameFromPolicy existsP (some wp) tp fn (.pint 0) =
        some (pyBasename (pyDirname wp)) ∧
      speakerNameFromPolicy existsP (some wp) tp fn (.pstr "") =
        some (pyBasename (pyDirname wp))) ∧
    (∀ (existsP : String → Bool) (tp fn : String),
      speakerNameFromPolicy existsP none (some tp) fn (.pint 0) =
        some (pyBasename (pyDirname tp))) ∧
    (∀ (existsP : String → Bool) (wp tp fn : String), existsP wp = false →
      speakerNameFromPolicy existsP (some wp) (some tp) fn (.pint 0) =
        some (pyBasename (pyDirname tp))) ∧
    (∀ (existsP : String → Bool) (wp tp : Option String) (fn : String)
      (n : Nat),
      speakerNameFromPolicy existsP wp tp fn (.pint (n + 1)) =
        some (strTake fn (n + 1))) ∧
    (∀ (existsP : String → Bool) (wp tp : Option String) (fn : String),
      speakerNameFromPolicy existsP wp tp fn (.pstr "prosodylab") =
        (pySplit fn '_').get? 1) ∧
    (∀ (existsP : String → Bool) (wp tp : Option String) (fn s : String),
      ¬ s = "" → ¬ s = "prosodylab" →
      speakerNameFromPolicy existsP wp tp fn (.pstr s) = some fn) ∧
    speakerNameFromPolicy (fun _ => true) (some "corpus/spk7/f.wav")
      (some "corpus/spk7/f.lab") "f" (.pint 0) = some "spk7" ∧
    speakerNameFromPolicy (fun _ => false) none (some "d/JOHN_utt1.lab")
      "JOHN_utt1" (.pstr "prosodylab") = some "utt1" ∧
    speakerNameFromPolicy (fun _ => true) (some "d/annaSession1.wav") none
      "annaSession1" (.pint 4) = some "anna" := by
  refine ⟨?_, ?_, ?_, ?_, ?_, ?_, by decide, by decide, by decide⟩
  · intro existsP wp tp fn h
    constructor <;> simp [speakerNameFromPolicy, h]
  · intro existsP tp fn
    simp [speakerNameFromPolicy]
  · intro existsP wp tp fn h
    simp [speakerNameFromPolicy, h]
  · intro existsP wp tp fn n
    simp [speakerNameFromPolicy]
  · intro existsP wp tp fn
    simp [speakerNameFromPolicy]
  · intro existsP wp tp fn s h1 h2
    simp [speakerNameFromPolicy, h1, h2]

/-- Claim C9 witness: the quantified parts applied at concrete inputs. -/
theorem claim_C9_witness :
    speakerNameFromPolicy (fun _ => true) (some "x/y/z.wav") (some "x/y/z.lab")
      "z" (.pint 0) = some (pyBasename (pyDirname "x/y/z.wav")) ∧
    speakerNameFromPolicy (fun _ => true) (some "x/y/z.wav") (some "x/y/z.lab")
      "zfile" (.pstr "other") = some "zfile" :=
  ⟨(claim_C9_speaker_attribution.1 (fun _ => true) "x/y/z.wav"
      (some "x/y/z.lab") "z" rfl).1,
    claim_C9_speaker_attribution.2.2.2.2.2.1 (fun _ => true)
      (some "x/y/z.wav") (some "x/y/z.lab") "zfile" "other"
      (by decide) (by decide)⟩

/-! ## Characterizing the TextGrid parse (towards claims C5, C8, C10)

Spec-level descriptions of what the parse produces, used to state the
round-trip theorem. -/

theorem collAdd_of_not_mem {α : Type} (k : String) (v : α)
    (l : List (String × α)) (h : ¬ k ∈ l.map Prod.fst) :
    collAdd k v l = l ++ [(k, v)] := by
  unfold collAdd
  rw [if_neg]
  simp only [List.any_eq_true, not_exists]
  intro kv hx
  rcases hx with ⟨hmem, hbeq⟩
  exact h (eq_of_beq hbeq ▸ List.mem_map.mpr ⟨kv, hmem, rfl⟩)

theorem add_speaker_of_not_matched {ν : Type} (f : File ν) (s : Speaker)
    (h : ¬ s.name ∈ f.speaker_ordering.filterMap
      (fun o => o.map Speaker.name)) :
    f.add_speaker (some s) =
      { f with speaker_ordering := f.speaker_ordering ++ [some s] } := by
  unfold File.add_speaker
  rw [if_neg]
  simp only [List.any_eq_true, not_exists]
  intro e hx
  rcases hx with ⟨hmem, hmatch⟩
  cases e with
  | none => simp [speakerMatches] at hmatch
  | some a =>
    simp only [speakerMatches, beq_iff_eq] at hmatch
    exact h (hmatch ▸ List.mem_filterMap.mpr ⟨some a, hmem, rfl⟩)

theorem entryStep_eq_some {tok : String → List String} {dur : ℚ} {s : Speaker}
    {fn : String} {e : ℚ × ℚ × String} {u : Utterance ℚ}
    (h : entryStep tok dur s fn e = some u) :
    u = Utterance.init s fn (some (round4 e.1))
      (some (min (round4 e.2.1) dur)) (some 0)
      (some (joinSpace (tok (pyStrip (pyLower e.2.2))))) := by
  by_cases hw : (tok (pyStrip (pyLower e.2.2))).isEmpty
  · simp [entryStep, hw] at h
  · simp [entryStep, hw] at h
    exact h.symm

theorem entryStep_speaker {tok : String → List String} {dur : ℚ} {s : Speaker}
    {fn : String} {e : ℚ × ℚ × String} {u : Utterance ℚ}
    (h : entryStep tok dur s fn e = some u) : u.speaker = s := by
  rw [entryStep_eq_some h]; rfl

theorem entryStep_begin {tok : String → List String} {dur : ℚ} {s : Speaker}
    {fn : String} {e : ℚ × ℚ × String} {u : Utterance ℚ}
    (h : entryStep tok dur s fn e = some u) :
    u.begin = some (round4 e.1) := by
  rw [entryStep_eq_some h]; rfl

theorem entryStep_end {tok : String → List String} {dur : ℚ} {s : Speaker}
    {fn : String} {e : ℚ × ℚ × String} {u : Utterance ℚ}
    (h : entryStep tok dur s fn e = some u) :
    u.end_ = some (min (round4 e.2.1) dur) := by
  rw [entryStep_eq_some h]; rfl

/-- Projections preserved by `add_utterance`. -/
theorem add_utterance_wav_path {ν : Type} (render : ν → String) (f : File ν)
    (u : Utterance ν) : (f.add_utterance render u).wav_path = f.wav_path := by
  rw [add_utterance_eq]

theorem add_utterance_wav_info {ν : Type} (render : ν → String) (f : File ν)
    (u : Utterance ν) : (f.add_utterance render u).wav_info = f.wav_info := by
  rw [add_utterance_eq]

theorem add_utterance_name {ν : Type} (render : ν → String) (f : File ν)
    (u : Utterance ν) : (f.add_utterance render u).name = f.name := by
  rw [add_utterance_eq]

theorem add_utterance_durationVal {ν : Type} (render : ν → String)
    (oracle : String → WavInfo) (f : File ν) (u : Utterance ν) :
    (f.add_utterance render u).durationVal oracle = f.durationVal oracle := by
  unfold File.durationVal
  rw [add_utterance_wav_path, add_utterance_wav_info]

/-- The entry loop of one kept tier, characterized: with the tier's speaker
already registered and no key collisions, it appends one utterance per entry
whose label tokenizes to something, in order. -/
theorem entryFold_eq (tok : String → List String) (render : ℚ → String)
    (oracle : String → WavInfo) (s : Speaker) :
    ∀ (entries : List (ℚ × ℚ × String)) (acc : File ℚ) (dur : ℚ)
      (fn : String),
      File.durationVal oracle acc = dur → acc.name = fn →
      some s ∈ acc.speaker_ordering →
      (acc.utterances.map Prod.fst ++
        (entries.filterMap (entryStep tok dur s fn)).map
          (fun u => u.name render)).Nodup →
      entries.foldl
        (fun a e =>
          match entryStep tok (File.durationVal oracle a) s a.name e with
          | some u => a.add_utterance render u
          | none => a)
        acc =
      { acc with
        utterances := acc.utterances ++
          (entries.filterMap (entryStep tok dur s fn)).map
            (fun u => (u.name render, u)) } := by
  intro entries
  induction entries with
  | nil =>
    intro acc dur fn _ _ _ _
    simp
  | cons e rest ih =>
    intro acc dur fn hdur hname hmem hkeys
    simp only [List.foldl_cons]
    rcases hstep : entryStep tok dur s fn e with _ | u
    · have hstep' :
          entryStep tok (File.durationVal oracle acc) s acc.name e = none := by
        rw [hdur, hname]; exact hstep
      simp only [hstep']
      have := ih acc dur fn hdur hname hmem
        (by simpa [List.filterMap_cons, hstep] using hkeys)
      rw [this]
      simp [List.filterMap_cons, hstep]
    · have hstep' :
          entryStep tok (File.durationVal oracle acc) s acc.name e = some u := by
        rw [hdur, hname]; exact hstep
      simp only [hstep']
      have hkeys' :
          (acc.utterances.map Prod.fst ++
            (u.name render) ::
              (rest.filterMap (entryStep tok dur s fn)).map
                (fun x => x.name render)).Nodup := by
        simpa [List.filterMap_cons, hstep] using hkeys
      have hknotin : ¬ u.name render ∈ acc.utterances.map Prod.fst := by
        intro hmem2
        have hd := List.disjoint_of_nodup_append hkeys'
        exact hd hmem2 (List.mem_cons_self _ _)
      have hadd :
          acc.add_utterance render u =
            { acc with
              utterances := acc.utterances ++ [(u.name render, u)] } := by
        rw [add_utterance_of_mem render acc u
          (by rw [entryStep_speaker hstep]; exact hmem),
          collAdd_of_not_mem _ _ _ hknotin]
      rw [hadd]
      have hrest := ih
        { acc with utterances := acc.utterances ++ [(u.name render, u)] }
        dur fn (by rw [← hdur]; unfold File.durationVal; rfl) hname hmem
        (by
          simp only [List.map_append]
          simpa [List.append_assoc] using hkeys')
      rw [hrest]
      simp [List.filterMap_cons, hstep]

/-- The tier loop of the TextGrid parse, characterized: starting from a file
state, with all (stripped) kept tier names fresh and distinct and no utterance
key collisions, it appends one speaker per kept tier and the concatenation of
each kept tier's utterances, in document order. -/
theorem tierFold_eq (tok : String → List String) (render : ℚ → String)
    (oracle : String → WavInfo) :
    ∀ (tg : List InTier) (acc : File ℚ) (dur : ℚ) (fn : String),
      File.durationVal oracle acc = dur → acc.name = fn →
      ((acc.speaker_ordering.filterMap (fun o => o.map Speaker.name)) ++
        (keptTiers tg).map (fun ti => pyStrip ti.name)).Nodup →
      (acc.utterances.map Prod.fst ++
        ((keptTiers tg).map (tierUtts tok dur fn)).flatten.map
          (fun u => u.name render)).Nodup →
      tg.foldl (loadTextGridTier tok render oracle none) acc =
        { acc with
          speaker_ordering := acc.speaker_ordering ++
            (keptTiers tg).map
              (fun ti => some ⟨pyStrip ti.name, none, none⟩),
          utterances := acc.utterances ++
            ((keptTiers tg).map (tierUtts tok dur fn)).flatten.map
              (fun u => (u.name render, u)) } := by
  intro tg
  induction tg with
  | nil =>
    intro acc dur fn _ _ _ _
    simp [keptTiers]
  | cons ti rest ih =>
    intro acc dur fn hdur hname hord hkeys
    rcases hn : (pyLower ti.name == "notes") with _ | _
    case true =>
      have hkept : keptTiers (ti :: rest) = keptTiers rest := by
        simp [keptTiers, List.filter_cons, hn]
      rw [hkept] at hord hkeys
      have hstep : loadTextGridTier tok render oracle none acc ti = acc := by
        simp [loadTextGridTier, hn]
      simp only [List.foldl_cons, hstep, hkept]
      exact ih acc dur fn hdur hname hord hkeys
    case false =>
      rcases hI : ti.isIntervalTier with _ | _
      case false =>
        have hkept : keptTiers (ti :: rest) = keptTiers rest := by
          simp [keptTiers, List.filter_cons, hn, hI]
        rw [hkept] at hord hkeys
        have hstep : loadTextGridTier tok render oracle none acc ti = acc := by
          simp [loadTextGridTier, hn, hI]
        simp only [List.foldl_cons, hstep, hkept]
        exact ih acc dur fn hdur hname hord hkeys
      case true =>
        have hkept : keptTiers (ti :: rest) = ti :: keptTiers rest := by
          simp [keptTiers, List.filter_cons, hn, hI]
        rw [hkept] at hord hkeys
        simp only [List.map_cons, List.flatten_cons, List.map_append]
          at hkeys
        simp only [List.map_cons] at hord
        have hfresh : ¬ (pyStrip ti.name) ∈
            acc.speaker_ordering.filterMap (fun o => o.map Speaker.name) := by
          intro hmem
          have hd := List.disjoint_of_nodup_append hord
          exact hd hmem (List.mem_cons_self _ _)
        have hadd := add_speaker_of_not_matched acc
          ⟨pyStrip ti.name, none, none⟩ hfresh
        have hinner := entryFold_eq tok render oracle
          ⟨pyStrip ti.name, none, none⟩ ti.entries
          { acc with
            speaker_ordering :=
              acc.speaker_ordering ++ [some ⟨pyStrip ti.name, none, none⟩] }
          dur fn (by rw [← hdur]; rfl) hname
          (List.mem_append.mpr (Or.inr (List.mem_singleton.mpr rfl)))
          (by
            have hsub :
                (acc.utterances.map Prod.fst ++
                  (tierUtts tok dur fn ti).map
                    (fun u => u.name render)).Sublist
                  (acc.utterances.map Prod.fst ++
                    ((tierUtts tok dur fn ti).map (fun u => u.name render) ++
                      ((keptTiers rest).map (tierUtts tok dur fn)).flatten.map
                        (fun u => u.name render))) :=
              List.Sublist.append_left (List.sublist_append_left _ _) _
            exact hkeys.sublist hsub)
        have hgoal :
            loadTextGridTier tok render oracle none acc ti =
              ti.entries.foldl
                (fun a e =>
                  match entryStep tok (File.durationVal oracle a)
                      ⟨pyStrip ti.name, none, none⟩ a.name e with
                  | some u => a.add_utterance render u
                  | none => a)
                (acc.add_speaker (some ⟨pyStrip ti.name, none, none⟩)) := by
          unfold loadTextGridTier
          rw [if_neg (by simp [hn]), if_neg (by simp [hI])]
        have hstep :
            loadTextGridTier tok render oracle none acc ti =
              { acc with
                speaker_ordering :=
                  acc.speaker_ordering ++
                    [some ⟨pyStrip ti.name, none, none⟩]
                utterances := acc.utterances ++
                  (tierUtts tok dur fn ti).map
                    (fun u => (u.name render, u)) } := by
          rw [hgoal, hadd]
          exact hinner
        rw [List.foldl_cons, hstep]
        have hrest := ih
          { acc with
            speaker_ordering :=
              acc.speaker_ordering ++ [some ⟨pyStrip ti.name, none, none⟩]
            utterances := acc.utterances ++
              (tierUtts tok dur fn ti).map (fun u => (u.name render, u)) }
          dur fn (by rw [← hdur]; rfl) hname
          (by
            simp only [List.filterMap_append]
            simpa [List.append_assoc] using hord)
          (by
            simp only [List.map_append]
            rw [show (List.map Prod.fst
                ((tierUtts tok dur fn ti).map (fun u => (u.name render, u))))
                = (tierUtts tok dur fn ti).map (fun u => u.name render) by
              simp]
            simpa [List.append_assoc] using hkeys)
        rw [hrest, hkept]
        simp [List.append_assoc]

/-! ## Characterizing the write-back (towards claim C5) -/

/-- The interval-appending loop of `save`: each tier ends up with the
intervals of exactly the utterances whose speaker names it, in collection
order. -/
theorem appendFold_eq {ν : Type} :
    ∀ (us : List (String × Utterance ν)) (tiers : List (OutTier ν)),
      us.foldl
        (fun acc kv => appendToTier acc kv.2.speaker.name (outIv kv.2))
        tiers =
      tiers.map (fun t =>
        { t with
            entries := t.entries ++
              (us.filter (fun kv => kv.2.speaker.name == t.name)).map
                (fun kv => outIv kv.2) }) := by
  intro us
  induction us with
  | nil =>
    intro tiers
    simp only [List.foldl_nil, List.filter_nil, List.map_nil,
      List.append_nil]
    have : ∀ t ∈ tiers,
        ({ t with entries := t.entries } : OutTier ν) = t := by
      intro t _
      rfl
    rw [List.map_congr_left this]
    simp
  | cons kv rest ih =>
    intro tiers
    simp only [List.foldl_cons]
    rw [ih (appendToTier tiers kv.2.speaker.name (outIv kv.2))]
    unfold appendToTier
    rw [List.map_map]
    apply List.map_congr_left
    intro t _
    by_cases hm : t.name = kv.2.speaker.name
    · simp [Function.comp, hm, List.filter_cons, List.append_assoc]
    · have hm2 : ¬ kv.2.speaker.name = t.name := fun h => hm h.symm
      simp [Function.comp, hm, hm2, List.filter_cons]

/-- Source: `saveTierList` on an unaligned file. -/
theorem saveTierList_unaligned {ν : Type} (oracle : String → WavInfo)
    (f : File ν) (hal : f.aligned = false) :
    saveTierList oracle f =
      (buildTiers f.speaker_ordering (f.durationVal oracle)).map (fun t =>
        { t with
            entries := t.entries ++
              (f.utterances.filter
                (fun kv => kv.2.speaker.name == t.name)).map
                  (fun kv => outIv kv.2) }) := by
  unfold saveTierList
  simp only [hal, Bool.false_eq_true, if_false]
  exact appendFold_eq f.utterances _

/-- Every utterance a kept tier produces carries the tier's stripped name as
its speaker. -/
theorem tierUtts_speaker (tok : String → List String) (dur : ℚ) (fn : String)
    (ti : InTier) :
    ∀ u ∈ tierUtts tok dur fn ti, u.speaker.name = pyStrip ti.name := by
  intro u hu
  rcases List.mem_filterMap.mp hu with ⟨e, _, hstep⟩
  rw [entryStep_speaker hstep]

theorem filter_speaker_map (render : ℚ → String) (l : List (Utterance ℚ))
    (nm target : String) (h : ∀ u ∈ l, u.speaker.name = nm) :
    ((l.map (fun u => (u.name render, u))).filter
        (fun kv => kv.2.speaker.name == target)) =
      if nm = target then l.map (fun u => (u.name render, u)) else [] := by
  induction l with
  | nil => simp
  | cons u rest ih =>
    have hu : u.speaker.name = nm := h u (List.mem_cons_self _ _)
    have hrest := ih (fun v hv => h v (List.mem_cons_of_mem _ hv))
    simp only [List.map_cons, List.filter_cons]
    by_cases ht : nm = target
    · have hb : (u.speaker.name == target) = true := by
        rw [hu, ht]; simp
      simp [hb, hrest, ht]
    · have hb : (u.speaker.name == target) = false := by
        rw [hu]; simpa using ht
      simp [hb, hrest, ht]

theorem filter_flatten_not_mem (render : ℚ → String)
    (tok : String → List String) (dur : ℚ) (fn : String) :
    ∀ (tis : List InTier) (target : String),
      ¬ target ∈ tis.map (fun ti => pyStrip ti.name) →
      (((tis.map (tierUtts tok dur fn)).flatten.map
          (fun u => (u.name render, u))).filter
        (fun kv => kv.2.speaker.name == target)) = [] := by
  intro tis
  induction tis with
  | nil => intro target _; simp
  | cons tj rest ih =>
    intro target htgt
    simp only [List.map_cons, List.flatten_cons, List.map_append,
      List.filter_append]
    have h1 := filter_speaker_map render (tierUtts tok dur fn tj)
      (pyStrip tj.name) target (tierUtts_speaker tok dur fn tj)
    have hne : ¬ pyStrip tj.name = target := by
      intro heq
      exact htgt (heq ▸ List.mem_cons_self _ _)
    rw [h1, if_neg hne, List.nil_append]
    exact ih target (fun hmem => htgt (List.mem_cons_of_mem _ hmem))

theorem filter_flatten_target (render : ℚ → String)
    (tok : String → List String) (dur : ℚ) (fn : String) :
    ∀ (tis : List InTier) (target : InTier),
      target ∈ tis →
      (tis.map (fun ti => pyStrip ti.name)).Nodup →
      (((tis.map (tierUtts tok dur fn)).flatten.map
          (fun u => (u.name render, u))).filter
        (fun kv => kv.2.speaker.name == pyStrip target.name)) =
      (tierUtts tok dur fn target).map (fun u => (u.name render, u)) := by
  intro tis
  induction tis with
  | nil => intro target h _; exact absurd h (List.not_mem_nil _)
  | cons tj rest ih =>
    intro target htgt hnd
    simp only [List.map_cons, List.flatten_cons, List.map_append,
      List.filter_append]
    have h1 := filter_speaker_map render (tierUtts tok dur fn tj)
      (pyStrip tj.name) (pyStrip target.name) (tierUtts_speaker tok dur fn tj)
    rcases List.mem_cons.mp htgt with heq | hmem
    · subst heq
      rw [List.map_cons] at hnd
      rcases List.nodup_cons.mp hnd with ⟨hnotin, _⟩
      rw [h1, if_pos rfl]
      rw [filter_flatten_not_mem render tok dur fn rest (pyStrip target.name)
        hnotin, List.append_nil]
    · rw [List.map_cons] at hnd
      rcases List.nodup_cons.mp hnd with ⟨hnotin, hnd2⟩
      have hne : ¬ pyStrip tj.name = pyStrip target.name := by
        intro heq
        exact hnotin (heq ▸ List.mem_map.mpr ⟨target, hmem, rfl⟩)
      rw [h1, if_neg hne, List.nil_append]
      exact ih target hmem hnd2

/-- Source: `save` takes the TextGrid branch whenever no utterance lacks a begin
boundary (in particular for every parsed, segmented file). -/
theorem save_eq_textgrid_of {ν : Type} (oracle : String → WavInfo)
    (existsP : String → Bool) (f : File ν) (od bd : Option String)
    (h : ∀ kv ∈ f.utterances, kv.2.begin.isNone = false) :
    f.save oracle existsP od bd = f.saveTextGrid oracle existsP od bd := by
  unfold File.save
  rcases hu : f.utterances with _ | ⟨⟨k, u⟩, rest⟩
  · rfl
  · rcases rest with _ | ⟨kv2, rest2⟩
    · have hb : u.begin.isNone = false :=
        h (k, u) (by rw [hu]; exact List.mem_singleton.mpr rfl)
      simp [hb]
    · rfl

/-! ## Claim C5: tiered round trip -/

/-- Claim C5 (amended).  Parsing a tiered annotation whose kept tiers (interval
tiers not named `"notes"`) have distinct *stripped* names and whose produced
utterance identifiers do not collide, into a fresh unaligned `File`, and
saving it back, produces a tiered document with exactly one tier per kept
source tier, in the same order, named by the *stripped* source tier name,
spanning `0 .. duration`, holding one interval per source interval whose label
tokenizes to a non-empty word sequence, in order (with the parse's
rounded/clamped boundaries and space-joined labels).  Without the two
distinctness hypotheses tiers and intervals can collapse — see the
counterexample. -/
theorem claim_C5_roundtrip (tok : String → List String) (render : ℚ → String)
    (oracle : String → WavInfo) (existsP : String → Bool)
    (od bd : Option String) (f : File ℚ) (tg : List InTier)
    (h0 : f.utterances = []) (hord : f.speaker_ordering = [])
    (hal : f.aligned = false) (htg : ¬ tg = [])
    (hch : f.num_channelsVal oracle ≤ 2)
    (hnames : ((keptTiers tg).map (fun ti => pyStrip ti.name)).Nodup)
    (hkeys : (((keptTiers tg).map
        (tierUtts tok (f.durationVal oracle) f.name)).flatten.map
        (fun u => u.name render)).Nodup) :
    loadTextGrid tok render oracle f tg none =
      .ok (parsedFile tok render oracle f tg) ∧
    (parsedFile tok render oracle f tg).save oracle existsP od bd =
      .tgrid
        ((parsedFile tok render oracle f tg).construct_output_path existsP
          od bd false)
        ((keptTiers tg).map (fun ti =>
          ⟨pyStrip ti.name,
            (tierUtts tok (f.durationVal oracle) f.name ti).map outIv,
            0, f.durationVal oracle⟩)) := by
  have hload : loadTextGrid tok render oracle f tg none =
      .ok (parsedFile tok render oracle f tg) := by
    unfold loadTextGrid
    rw [if_neg (fun h => htg (List.length_eq_zero.mp h)),
      if_neg (by omega)]
    rw [tierFold_eq tok render oracle tg f (f.durationVal oracle) f.name rfl
      rfl (by rw [hord]; simpa using hnames) (by rw [h0]; simpa using hkeys)]
    rw [hord, h0]
    unfold parsedFile
    simp
  refine ⟨hload, ?_⟩
  have hsome : ∀ kv ∈ (parsedFile tok render oracle f tg).utterances,
      kv.2.begin.isNone = false := by
    intro kv hkv
    unfold parsedFile at hkv
    simp only at hkv
    rcases List.mem_map.mp hkv with ⟨u, hu, rfl⟩
    rcases List.mem_flatten.mp hu with ⟨l, hl, hul⟩
    rcases List.mem_map.mp hl with ⟨ti, _, rfl⟩
    rcases List.mem_filterMap.mp hul with ⟨e, _, hstep⟩
    rw [show u.begin = some (round4 e.1) from entryStep_begin hstep]
    rfl
  rw [save_eq_textgrid_of oracle existsP _ od bd hsome]
  unfold File.saveTextGrid
  congr 1
  have haligned : (parsedFile tok render oracle f tg).aligned = false := hal
  rw [saveTierList_unaligned oracle _ haligned]
  have hdur : (parsedFile tok render oracle f tg).durationVal oracle =
      f.durationVal oracle := rfl
  have hb : buildTiers (parsedFile tok render oracle f tg).speaker_ordering
      ((parsedFile tok render oracle f tg).durationVal oracle) =
      (keptTiers tg).map (fun ti =>
        (⟨pyStrip ti.name, [], 0, f.durationVal oracle⟩ : OutTier ℚ)) := by
    rw [hdur]
    show buildTiers ((keptTiers tg).map
      (fun ti => some (⟨pyStrip ti.name, none, none⟩ : Speaker)))
      (f.durationVal oracle) = _
    rw [show (keptTiers tg).map
        (fun ti => some (⟨pyStrip ti.name, none, none⟩ : Speaker)) =
        ((keptTiers tg).map
          (fun ti => (⟨pyStrip ti.name, none, none⟩ : Speaker))).map some
      from by rw [List.map_map]; rfl]
    have hfold := buildTiers_fold (ν := ℚ)
      ((keptTiers tg).map
        (fun ti => (⟨pyStrip ti.name, none, none⟩ : Speaker)))
      [] (f.durationVal oracle)
      (by simpa [List.map_map, Function.comp] using hnames)
    unfold buildTiers
    rw [hfold, List.nil_append, List.map_map]
    rfl
  rw [hb, List.map_map]
  apply List.map_congr_left
  intro ti hti
  have hfilter := filter_flatten_target render tok (f.durationVal oracle)
    f.name (keptTiers tg) ti hti hnames
  show ({ (⟨pyStrip ti.name, [], 0, f.durationVal oracle⟩ : OutTier ℚ) with
      entries := ([] : List (OutInterval ℚ)) ++
        (((parsedFile tok render oracle f tg).utterances.filter
          (fun kv => kv.2.speaker.name == pyStrip ti.name)).map
            (fun kv => outIv kv.2)) } : OutTier ℚ) = _
  rw [List.nil_append]
  unfold parsedFile
  simp only
  rw [hfilter, List.map_map]
  rfl

/-- Claim C5 witness: the round-trip theorem applied to a concrete one-tier
document. -/
theorem claim_C5_witness :
    loadTextGrid (fun s => [s]) (fun _ => "0")
      (fun _ => ⟨10, 16000, 1, "wav", ""⟩)
      (⟨some "d/a.wav", some "d/a.TextGrid", none, "a",
        some ⟨10, 16000, 1, "wav", ""⟩, none, [], [], false⟩ : File ℚ)
      [⟨"A", true, []⟩] none =
      .ok (parsedFile (fun s => [s]) (fun _ => "0")
        (fun _ => ⟨10, 16000, 1, "wav", ""⟩)
        (⟨some "d/a.wav", some "d/a.TextGrid", none, "a",
          some ⟨10, 16000, 1, "wav", ""⟩, none, [], [], false⟩ : File ℚ)
        [⟨"A", true, []⟩]) :=
  (claim_C5_roundtrip (fun s => [s]) (fun _ => "0")
    (fun _ => ⟨10, 16000, 1, "wav", ""⟩) (fun _ => false) none none
    (⟨some "d/a.wav", some "d/a.TextGrid", none, "a",
      some ⟨10, 16000, 1, "wav", ""⟩, none, [], [], false⟩ : File ℚ)
    [⟨"A", true, []⟩] rfl rfl rfl (by decide) (by decide) (by decide)
    (by decide)).1

/-- Claim C5 counterexample: two interval tiers named `"A"` and `"A "` (neither
named `"notes"`) survive the exclusions, so the claim predicts a round-trip
document with the same two tiers; but their *stripped* names coincide, the
parse registers a single speaker, and the written document has a single tier
named `"A"`. -/
theorem claim_C5_counterexample :
    (keptTiers [⟨"A", true, []⟩, ⟨"A ", true, []⟩]).length = 2 ∧
    loadTextGrid (fun s => [s]) (fun _ => "0")
      (fun _ => ⟨10, 16000, 1, "wav", ""⟩)
      (⟨some "d/a.wav", some "d/a.TextGrid", none, "a",
        some ⟨10, 16000, 1, "wav", ""⟩, none, [], [], false⟩ : File ℚ)
      [⟨"A", true, []⟩, ⟨"A ", true, []⟩] none =
      .ok (⟨some "d/a.wav", some "d/a.TextGrid", none, "a",
        some ⟨10, 16000, 1, "wav", ""⟩, none, [some ⟨"A", none, none⟩], [],
        false⟩ : File ℚ) ∧
    File.save (fun _ => ⟨10, 16000, 1, "wav", ""⟩) (fun _ => false)
      (⟨some "d/a.wav", some "d/a.TextGrid", none, "a",
        some ⟨10, 16000, 1, "wav", ""⟩, none, [some ⟨"A", none, none⟩], [],
        false⟩ : File ℚ) none none =
      .tgrid "d/a.TextGrid" [⟨"A", [], 0, 10⟩] :=
  ⟨rfl, rfl, rfl⟩

/-! ## Claim C7: the plain-transcript shortcut of `save` -/

/-- Reductions of `File.save` by the shape of the utterance collection. -/
theorem save_singleton {ν : Type} (oracle : String → WavInfo)
    (existsP : String → Bool) (f : File ν) (od bd : Option String)
    (k : String) (u : Utterance ν) (hu : f.utterances = [(k, u)]) :
    f.save oracle existsP od bd =
      if (u.begin.isNone && u.phoneLabelsFalsy) = true then
        .lab (f.construct_output_path existsP od bd true)
          (u.transcription_text.or u.text)
      else f.saveTextGrid oracle existsP od bd := by
  unfold File.save
  rw [hu]

theorem save_nil {ν : Type} (oracle : String → WavInfo)
    (existsP : String → Bool) (f : File ν) (od bd : Option String)
    (hu : f.utterances = []) :
    f.save oracle existsP od bd = f.saveTextGrid oracle existsP od bd := by
  unfold File.save
  rw [hu]

theorem save_multi {ν : Type} (oracle : String → WavInfo)
    (existsP : String → Bool) (f : File ν) (od bd : Option String)
    (kv1 kv2 : String × Utterance ν) (rest : List (String × Utterance ν))
    (hu : f.utterances = kv1 :: kv2 :: rest) :
    f.save oracle existsP od bd = f.saveTextGrid oracle existsP od bd := by
  unfold File.save
  rw [hu]

/-- Claim C7.  For a file whose utterances never have only one boundary set
(one-sided boundaries are invalid states), `save` writes a plain transcript —
at the path with the lab extension forced, containing the transcription text
when present, else the raw text — exactly when the file holds exactly one
utterance, that utterance has no boundary, and its phone labels are falsy;
in every other case it writes a TextGrid at the TextGrid-extension path. -/
theorem claim_C7_save_shortcut {ν : Type} (oracle : String → WavInfo)
    (existsP : String → Bool) (f : File ν) (od bd : Option String)
    (hvalid : ∀ kv ∈ f.utterances, kv.2.begin = none → kv.2.end_ = none) :
    ((∃ p c, f.save oracle existsP od bd = .lab p c) ↔
      (∃ k u, f.utterances = [(k, u)] ∧ u.begin = none ∧ u.end_ = none ∧
        u.phoneLabelsFalsy = true)) ∧
    (∀ k u, f.utterances = [(k, u)] → u.begin = none →
      u.phoneLabelsFalsy = true →
      f.save oracle existsP od bd =
        .lab (f.construct_output_path existsP od bd true)
          (u.transcription_text.or u.text)) ∧
    (¬ (∃ k u, f.utterances = [(k, u)] ∧ u.begin = none ∧
        u.phoneLabelsFalsy = true) →
      ∃ ts, f.save oracle existsP od bd =
        .tgrid (f.construct_output_path existsP od bd false) ts) := by
  refine ⟨⟨?_, ?_⟩, ?_, ?_⟩
  · rintro ⟨p, c, hsave⟩
    rcases hu : f.utterances with _ | ⟨⟨k, u⟩, rest⟩
    · rw [save_nil oracle existsP f od bd hu] at hsave
      exact absurd hsave (by unfold File.saveTextGrid; simp)
    · rcases rest with _ | ⟨kv2, rest2⟩
      · rw [save_singleton oracle existsP f od bd k u hu] at hsave
        by_cases hcond : (u.begin.isNone && u.phoneLabelsFalsy) = true
        · simp only [Bool.and_eq_true] at hcond
          have hbn : u.begin = none :=
            Option.isNone_iff_eq_none.mp hcond.1
          exact ⟨k, u, rfl, hbn,
            hvalid (k, u) (by rw [hu]; exact List.mem_singleton.mpr rfl) hbn,
            hcond.2⟩
        · rw [if_neg hcond] at hsave
          exact absurd hsave (by unfold File.saveTextGrid; simp)
      · rw [save_multi oracle existsP f od bd _ _ _ hu] at hsave
        exact absurd hsave (by unfold File.saveTextGrid; simp)
  · rintro ⟨k, u, hu, hb, _, hp⟩
    refine ⟨f.construct_output_path existsP od bd true,
      u.transcription_text.or u.text, ?_⟩
    rw [save_singleton oracle existsP f od bd k u hu,
      if_pos (by rw [hb, hp]; rfl)]
  · intro k u hu hb hp
    rw [save_singleton oracle existsP f od bd k u hu,
      if_pos (by rw [hb, hp]; rfl)]
  · intro hnot
    refine ⟨saveTierList oracle f, ?_⟩
    rcases hu : f.utterances with _ | ⟨⟨k, u⟩, rest⟩
    · rw [save_nil oracle existsP f od bd hu]
      rfl
    · rcases rest with _ | ⟨kv2, rest2⟩
      · by_cases hcond : (u.begin.isNone && u.phoneLabelsFalsy) = true
        · rcases (Bool.and_eq_true _ _ ▸ hcond : u.begin.isNone = true ∧
            u.phoneLabelsFalsy = true) with ⟨hbn, hpf⟩
          exact absurd ⟨k, u, hu, Option.isNone_iff_eq_none.mp hbn, hpf⟩
            hnot
        · rw [save_singleton oracle existsP f od bd k u hu, if_neg hcond]
          rfl
      · rw [save_multi oracle existsP f od bd _ _ _ hu]
        rfl

/-! ## Claim C4: the speaker-ordering invariant -/

/-- Claim C7 witness: a one-utterance unsegmented file is written as a `.lab`
transcript with its raw text (its transcription text being absent). -/
theorem claim_C7_witness :
    File.save (ν := ℚ) (fun _ => ⟨3, 16000, 1, "wav", ""⟩) (fun _ => false)
      (⟨some "d/a.wav", some "d/a.lab", none, "a",
        some ⟨3, 16000, 1, "wav", ""⟩, none, [some ⟨"s", none, none⟩],
        [("s-a", Utterance.init ⟨"s", none, none⟩ "a" none none (some 0)
          (some "hi"))], false⟩ : File ℚ) none none =
      .lab "d/a.lab" (some "hi") := by
  have h := (claim_C7_save_shortcut (ν := ℚ)
    (fun _ => ⟨3, 16000, 1, "wav", ""⟩) (fun _ => false)
    (⟨some "d/a.wav", some "d/a.lab", none, "a",
      some ⟨3, 16000, 1, "wav", ""⟩, none, [some ⟨"s", none, none⟩],
      [("s-a", Utterance.init ⟨"s", none, none⟩ "a" none none (some 0)
        (some "hi"))], false⟩ : File ℚ) none none
    (by
      intro kv hkv _
      rcases List.mem_singleton.mp hkv with rfl
      rfl)).2.1 "s-a"
    (Utterance.init ⟨"s", none, none⟩ "a" none none (some 0) (some "hi"))
    rfl rfl rfl
  exact h

/-! ## Claim C4: the speaker-ordering invariant -/

theorem firstSeen_cons (l0 : List (Option Speaker)) (s : Speaker)
    (rest : List Speaker) :
    firstSeen l0 (s :: rest) =
      firstSeen
        (if l0.any (fun e => speakerMatches e (some s)) then l0
         else l0 ++ [some s])
        rest := rfl

/-- The state after a successful run of mutations: `speaker_ordering` is the
first-seen registration of the initial ordering extended by the speakers of
all *added* utterances — deletion never unregisters a speaker. -/
theorem applyOps_speaker_ordering {ν : Type} (render : ν → String) :
    ∀ (ops : List (FileOp ν)) (f f2 : File ν),
      applyOps render f ops = .ok f2 →
      f2.speaker_ordering = firstSeen f.speaker_ordering (addedSpeakers ops) := by
  intro ops
  induction ops with
  | nil =>
    intro f f2 h
    simp only [applyOps] at h
    cases h
    rfl
  | cons op rest ih =>
    intro f f2 h
    simp only [applyOps] at h
    cases op with
    | addU u =>
      simp only [applyOp, Except.bind] at h
      have h2 := ih (f.add_utterance render u) f2 h
      rw [h2, add_utterance_eq]
      simp only [addedSpeakers, List.filterMap_cons]
      rw [firstSeen_cons]
    | delU u =>
      simp only [applyOp, File.delete_utterance] at h
      rcases hdel : collDel (u.name render) f.utterances with e | us
      · rw [hdel] at h
        exact absurd h (by simp [Except.map, Except.bind])
      · rw [hdel] at h
        simp only [Except.map, Except.bind] at h
        have h2 := ih { f with utterances := us } f2 h
        rw [h2]
        simp only [addedSpeakers, List.filterMap_cons]

/-- Names appearing in the first-seen registration: each name exactly once,
and a name is present iff it was present initially or belongs to one of the
registered speakers. -/
theorem firstSeen_names :
    ∀ (ss : List Speaker) (l0 : List (Option Speaker)),
      (orderingNames l0).Nodup →
      ((orderingNames (firstSeen l0 ss)).Nodup ∧
        ∀ n, n ∈ orderingNames (firstSeen l0 ss) ↔
          (n ∈ orderingNames l0 ∨ n ∈ ss.map Speaker.name)) := by
  intro ss
  induction ss with
  | nil =>
    intro l0 h0
    exact ⟨h0, fun n => by simp [firstSeen]⟩
  | cons s rest ih =>
    intro l0 h0
    unfold firstSeen
    by_cases hmem : l0.any (fun e => speakerMatches e (some s)) = true
    · rw [if_pos hmem]
      have hs : s.name ∈ orderingNames l0 := by
        rcases List.any_eq_true.mp hmem with ⟨e, he, hm⟩
        cases e with
        | none => simp [speakerMatches] at hm
        | some a =>
          simp only [speakerMatches, beq_iff_eq] at hm
          exact hm ▸ List.mem_filterMap.mpr ⟨some a, he, rfl⟩
      rcases ih l0 h0 with ⟨hnd, hiff⟩
      refine ⟨hnd, fun n => ?_⟩
      rw [hiff n]
      constructor
      · rintro (h | h)
        · exact Or.inl h
        · rw [List.map_cons]
          exact Or.inr (List.mem_cons_of_mem _ h)
      · rintro (h | h)
        · exact Or.inl h
        · rw [List.map_cons] at h
          rcases List.mem_cons.mp h with rfl | h2
          · exact Or.inl hs
          · exact Or.inr h2
    · rw [if_neg hmem]
      have hfresh : ¬ s.name ∈ orderingNames l0 := by
        intro hn
        rcases List.mem_filterMap.mp hn with ⟨o, ho, hmap⟩
        cases o with
        | none => simp at hmap
        | some a =>
          simp only [Option.map_some', Option.some.injEq] at hmap
          exact hmem (List.any_eq_true.mpr ⟨some a, ho,
            by simp [speakerMatches, hmap]⟩)
      have hnames : orderingNames (l0 ++ [some s]) =
          orderingNames l0 ++ [s.name] := by
        simp [orderingNames, List.filterMap_append]
      rcases ih (l0 ++ [some s]) (by
        rw [hnames]
        exact List.Nodup.append h0 (List.nodup_singleton _)
          (by simpa using hfresh)) with ⟨hnd, hiff⟩
      refine ⟨hnd, fun n => ?_⟩
      rw [hiff n, hnames]
      constructor
      · rintro (h | h)
        · rcases List.mem_append.mp h with h2 | h2
          · exact Or.inl h2
          · rcases List.mem_singleton.mp h2 with rfl
            exact Or.inr (by simp)
        · rw [List.map_cons]
          exact Or.inr (List.mem_cons_of_mem _ h)
      · rintro (h | h)
        · exact Or.inl (List.mem_append.mpr (Or.inl h))
        · rw [List.map_cons] at h
          rcases List.mem_cons.mp h with rfl | h2
          · exact Or.inl (List.mem_append.mpr (Or.inr (by simp)))
          · exact Or.inr h2

/-- Claim C4 (amended).  Under any successful sequence of
`add_utterance` / `delete_utterance` operations starting from a file with no
registered speakers, `speaker_ordering` is exactly the first-seen
registration of the speakers of all *added* utterances: each such speaker's
name appears exactly once, in order of first insertion — but speakers are
never removed on deletion, so the ordering can strictly exceed the distinct
speakers of the *current* utterances (see the counterexample). -/
theorem claim_C4_speaker_ordering {ν : Type} (render : ν → String)
    (ops : List (FileOp ν)) (f f2 : File ν)
    (hord : f.speaker_ordering = [])
    (happly : applyOps render f ops = .ok f2) :
    f2.speaker_ordering = firstSeen [] (addedSpeakers ops) ∧
    (orderingNames f2.speaker_ordering).Nodup ∧
    (∀ n, n ∈ orderingNames f2.speaker_ordering ↔
      n ∈ (addedSpeakers ops).map Speaker.name) := by
  have h1 := applyOps_speaker_ordering render ops f f2 happly
  rw [hord] at h1
  rcases firstSeen_names (addedSpeakers ops) [] (by simp [orderingNames])
    with ⟨hnd, hiff⟩
  refine ⟨h1, by rw [h1]; exact hnd, fun n => ?_⟩
  rw [h1, hiff n]
  simp [orderingNames]

/-- Claim C4 witness: the theorem applied to a concrete add/delete run. -/
theorem claim_C4_witness :
    applyOps PyNum.render
      (⟨some "f.wav", none, none, "f", none, none, [], [], false⟩ :
        File PyNum)
      [.addU (Utterance.init ⟨"A", none, none⟩ "f" none none (some 0)
        (some "x"))] =
      .ok (⟨some "f.wav", none, none, "f", none, none,
        [some ⟨"A", none, none⟩],
        [("A-f", Utterance.init ⟨"A", none, none⟩ "f" none none (some 0)
          (some "x"))], false⟩ : File PyNum) ∧
    (⟨some "f.wav", none, none, "f", none, none, [some ⟨"A", none, none⟩],
      [("A-f", Utterance.init ⟨"A", none, none⟩ "f" none none (some 0)
        (some "x"))], false⟩ : File PyNum).speaker_ordering =
      firstSeen []
        (addedSpeakers [FileOp.addU (ν := PyNum)
          (Utterance.init ⟨"A", none, none⟩ "f" none none (some 0)
            (some "x"))]) := by
  constructor
  · rfl
  · exact (claim_C4_speaker_ordering PyNum.render
      [.addU (Utterance.init ⟨"A", none, none⟩ "f" none none (some 0)
        (some "x"))]
      (⟨some "f.wav", none, none, "f", none, none, [], [], false⟩ :
        File PyNum)
      (⟨some "f.wav", none, none, "f", none, none,
        [some ⟨"A", none, none⟩],
        [("A-f", Utterance.init ⟨"A", none, none⟩ "f" none none (some 0)
          (some "x"))], false⟩ : File PyNum)
      rfl rfl).1

/-- Claim C4 counterexample: adding one utterance of speaker `"A"` and then
deleting it leaves an *empty* utterance collection but a speaker ordering
still containing `"A"` — the ordering does not equal the distinct speakers of
the current utterances. -/
theorem claim_C4_counterexample :
    applyOps PyNum.render
      (⟨some "f.wav", none, none, "f", none, none, [], [], false⟩ :
        File PyNum)
      [.addU (Utterance.init ⟨"A", none, none⟩ "f" none none (some 0)
        (some "x")),
       .delU (Utterance.init ⟨"A", none, none⟩ "f" none none (some 0)
        (some "x"))] =
      .ok (⟨some "f.wav", none, none, "f", none, none,
        [some ⟨"A", none, none⟩], [], false⟩ : File PyNum) ∧
    ¬ ([some (⟨"A", none, none⟩ : Speaker)] :
        List (Option Speaker)) = [] := by
  exact ⟨rfl, by decide⟩

/-! ## Round-half-to-even characterization (towards claims C8, C10) -/

theorem rat_num_cast_eq (q : ℚ) : (q.num : ℚ) = q * (q.den : ℚ) := by
  have hden : ((q.den : ℚ)) ≠ 0 := by
    exact_mod_cast q.den_nz
  field_simp

theorem rhe_fdiv_eq_floor (q : ℚ) : Int.fdiv q.num q.den = ⌊q⌋ := by
  rw [Int.fdiv_eq_ediv _ (by exact_mod_cast Nat.zero_le q.den)]
  exact Rat.floor_def.symm

theorem rhe_fmod_eq (q : ℚ) :
    Int.fmod q.num q.den = q.num - q.den * ⌊q⌋ := by
  have h := Int.fmod_add_fdiv q.num q.den
  rw [rhe_fdiv_eq_floor] at h
  linarith

theorem rhe_fmod_cast (q : ℚ) :
    ((Int.fmod q.num q.den : ℤ) : ℚ) = (q - ⌊q⌋) * (q.den : ℚ) := by
  rw [rhe_fmod_eq]
  push_cast
  rw [rat_num_cast_eq]
  ring

theorem rhe_eq_floor (q : ℚ) (h : q - ⌊q⌋ < 1 / 2) : rhe q = ⌊q⌋ := by
  have hden : (0 : ℚ) < (q.den : ℚ) := by exact_mod_cast q.pos
  have h2 : 2 * Int.fmod q.num q.den < (q.den : ℤ) := by
    have hq : ((2 * Int.fmod q.num q.den : ℤ) : ℚ) < ((q.den : ℤ) : ℚ) := by
      push_cast
      rw [rhe_fmod_cast]
      nlinarith
    exact_mod_cast hq
  simp only [rhe]
  rw [if_neg (by omega), if_pos h2, rhe_fdiv_eq_floor]

theorem rhe_eq_floor_add_one (q : ℚ) (h : 1 / 2 < q - ⌊q⌋) :
    rhe q = ⌊q⌋ + 1 := by
  have hden : (0 : ℚ) < (q.den : ℚ) := by exact_mod_cast q.pos
  have h2 : (q.den : ℤ) < 2 * Int.fmod q.num q.den := by
    have hq : ((q.den : ℤ) : ℚ) < ((2 * Int.fmod q.num q.den : ℤ) : ℚ) := by
      push_cast
      rw [rhe_fmod_cast]
      nlinarith
    exact_mod_cast hq
  simp only [rhe]
  rw [if_neg (by omega), if_neg (by omega), rhe_fdiv_eq_floor]

theorem rhe_nonneg (q : ℚ) (h : 0 ≤ q) : 0 ≤ rhe q := by
  have h1 : 0 ≤ Int.fdiv q.num q.den := by
    rw [rhe_fdiv_eq_floor]
    exact Int.floor_nonneg.mpr h
  simp only [rhe]
  split_ifs <;> omega

theorem round4_nonneg (q : ℚ) (h : 0 ≤ q) : 0 ≤ round4 q := by
  unfold round4
  have h1 := rhe_nonneg (q * 10000) (by positivity)
  have h2 : (0 : ℚ) ≤ ((rhe (q * 10000) : ℤ) : ℚ) := by exact_mod_cast h1
  positivity

/-- The spec's rounding example: `round(1.23456, 4) = 1.2346`. -/
theorem round4_example : round4 (123456 / 100000 : ℚ) = 12346 / 10000 := by
  have hval : (123456 / 100000 * 10000 : ℚ) = 61728 / 5 := by norm_num
  have hfl : ⌊(61728 / 5 : ℚ)⌋ = 12345 := by
    rw [Int.floor_eq_iff]
    constructor <;> norm_num
  have hr := rhe_eq_floor_add_one (61728 / 5 : ℚ) (by rw [hfl]; norm_num)
  rw [hfl] at hr
  unfold round4
  rw [hval, hr]
  norm_num

/-! ## Claim C8: boundary rounding and clamping -/

/-- Claim C8.  An interval whose label tokenizes to a non-empty word sequence
is parsed into an utterance whose begin is the raw begin rounded to 4 decimal
places and whose end is the raw end rounded to 4 places and then clamped to
the file's duration; `round(1.23456, 4) = 1.2346`, and the clamp replaces the
end by the duration exactly when the rounded end exceeds it. -/
theorem claim_C8_boundary_rounding :
    (∀ (tok : String → List String) (render : ℚ → String)
      (oracle : String → WavInfo) (f : File ℚ) (nm : String) (b e : ℚ)
      (label : String),
      f.utterances = [] → f.speaker_ordering = [] →
      (pyLower nm == "notes") = false →
      f.num_channelsVal oracle ≤ 2 →
      (tok (pyStrip (pyLower label))).isEmpty = false →
      loadTextGrid tok render oracle f [⟨nm, true, [(b, e, label)]⟩] none =
        .ok (parsedFile tok render oracle f [⟨nm, true, [(b, e, label)]⟩]) ∧
      (parsedFile tok render oracle f
          [⟨nm, true, [(b, e, label)]⟩]).utterances =
        [((Utterance.init ⟨pyStrip nm, none, none⟩ f.name
            (some (round4 b))
            (some (min (round4 e) (f.durationVal oracle))) (some 0)
            (some (joinSpace (tok (pyStrip (pyLower label)))))).name render,
          Utterance.init ⟨pyStrip nm, none, none⟩ f.name
            (some (round4 b))
            (some (min (round4 e) (f.durationVal oracle))) (some 0)
            (some (joinSpace (tok (pyStrip (pyLower label))))))]) ∧
    round4 (123456 / 100000 : ℚ) = 12346 / 10000 ∧
    (∀ x dur : ℚ, dur ≤ x → min x dur = dur) := by
  refine ⟨?_, round4_example, fun x dur h => min_eq_right h⟩
  intro tok render oracle f nm b e label h0 hord hn hch hw
  have hkept : keptTiers [⟨nm, true, [(b, e, label)]⟩] =
      [⟨nm, true, [(b, e, label)]⟩] := by
    simp [keptTiers, hn]
  have hutts : tierUtts tok (f.durationVal oracle) f.name
      ⟨nm, true, [(b, e, label)]⟩ =
      [Utterance.init ⟨pyStrip nm, none, none⟩ f.name (some (round4 b))
        (some (min (round4 e) (f.durationVal oracle))) (some 0)
        (some (joinSpace (tok (pyStrip (pyLower label)))))] := by
    simp [tierUtts, entryStep, hw]
  constructor
  · unfold loadTextGrid
    rw [if_neg (by simp), if_neg (by omega)]
    rw [tierFold_eq tok render oracle _ f (f.durationVal oracle) f.name rfl
      rfl
      (by rw [hord, hkept]; simp)
      (by rw [h0, hkept]; simp [hutts])]
    rw [hord, h0]
    unfold parsedFile
    simp
  · unfold parsedFile
    simp only [hkept, List.map_cons, List.map_nil, List.flatten_cons,
      List.flatten_nil, List.append_nil, hutts]

/-- Claim C8 witness: the parse conjunct applied at a concrete input. -/
theorem claim_C8_witness :
    loadTextGrid (fun s => [s]) (fun _ => "0")
      (fun _ => ⟨10, 16000, 1, "wav", ""⟩)
      (⟨some "d/a.wav", some "d/a.TextGrid", none, "a",
        some ⟨10, 16000, 1, "wav", ""⟩, none, [], [], false⟩ : File ℚ)
      [⟨"A", true, [(0, 20, "hi")]⟩] none =
      .ok (parsedFile (fun s => [s]) (fun _ => "0")
        (fun _ => ⟨10, 16000, 1, "wav", ""⟩)
        (⟨some "d/a.wav", some "d/a.TextGrid", none, "a",
          some ⟨10, 16000, 1, "wav", ""⟩, none, [], [], false⟩ : File ℚ)
        [⟨"A", true, [(0, 20, "hi")]⟩]) :=
  (claim_C8_boundary_rounding.1 (fun s => [s]) (fun _ => "0")
    (fun _ => ⟨10, 16000, 1, "wav", ""⟩)
    (⟨some "d/a.wav", some "d/a.TextGrid", none, "a",
      some ⟨10, 16000, 1, "wav", ""⟩, none, [], [], false⟩ : File ℚ)
    "A" 0 20 "hi" rfl rfl (by decide) (by decide) (by decide)).1

/-! ## Claim C10: files without audio -/

theorem durationVal_of_no_wav {ν : Type} (oracle : String → WavInfo)
    (f : File ν) (h : f.wav_path = none) : f.durationVal oracle = 0 := by
  unfold File.durationVal
  rw [h]

theorem add_speaker_wav_path {ν : Type} (f : File ν) (s : Option Speaker) :
    (f.add_speaker s).wav_path = f.wav_path := by
  unfold File.add_speaker
  split <;> rfl

theorem add_speaker_utterances {ν : Type} (f : File ν) (s : Option Speaker) :
    (f.add_speaker s).utterances = f.utterances := by
  unfold File.add_speaker
  split <;> rfl

theorem mem_collAdd {α : Type} {kv : String × α} {k : String} {v : α}
    {l : List (String × α)} (h : kv ∈ collAdd k v l) :
    kv = (k, v) ∨ kv ∈ l := by
  unfold collAdd at h
  split at h
  · rcases List.mem_map.mp h with ⟨kv0, h0, heq⟩
    by_cases hk : (kv0.1 == k) = true
    · left
      rw [← heq]
      simp [hk]
    · right
      rw [← heq]
      simp only [hk, if_false, Bool.false_eq_true]
      simpa [hk] using h0
  · rcases List.mem_append.mp h with h0 | h0
    · right; exact h0
    · left; exact List.mem_singleton.mp h0

theorem add_utterance_mem {ν : Type} (render : ν → String) (f : File ν)
    (u : Utterance ν) {kv : String × Utterance ν}
    (h : kv ∈ (f.add_utterance render u).utterances) :
    kv = (u.name render, u) ∨ kv ∈ f.utterances := by
  rw [add_utterance_eq] at h
  exact mem_collAdd h

/-- The entry loop preserves "no audio path" and "every utterance ends at 0"
when every raw end is non-negative. -/
theorem entry_fold_end_zero (tok : String → List String)
    (render : ℚ → String) (oracle : String → WavInfo) (s : Speaker) :
    ∀ (entries : List (ℚ × ℚ × String)) (acc : File ℚ),
      acc.wav_path = none →
      (∀ e ∈ entries, 0 ≤ e.2.1) →
      (∀ kv ∈ acc.utterances, kv.2.end_ = some 0) →
      ((entries.foldl
          (fun a e =>
            match entryStep tok (File.durationVal oracle a) s a.name e with
            | some u => a.add_utterance render u
            | none => a)
          acc).wav_path = none ∧
        ∀ kv ∈ (entries.foldl
          (fun a e =>
            match entryStep tok (File.durationVal oracle a) s a.name e with
            | some u => a.add_utterance render u
            | none => a)
          acc).utterances, kv.2.end_ = some 0) := by
  intro entries
  induction entries with
  | nil =>
    intro acc hwav _ hutt
    exact ⟨hwav, hutt⟩
  | cons e rest ih =>
    intro acc hwav hent hutt
    simp only [List.foldl_cons]
    rcases hstep : entryStep tok (File.durationVal oracle acc) s acc.name e
      with _ | u
    · simp only [hstep]
      exact ih acc hwav (fun x hx => hent x (List.mem_cons_of_mem _ hx)) hutt
    · simp only [hstep]
      have hend : u.end_ = some 0 := by
        rw [entryStep_end hstep, durationVal_of_no_wav oracle acc hwav]
        rw [min_eq_right (round4_nonneg _
          (hent e (List.mem_cons_self _ _)))]
      exact ih (acc.add_utterance render u)
        (by rw [add_utterance_wav_path]; exact hwav)
        (fun x hx => hent x (List.mem_cons_of_mem _ hx))
        (by
          intro kv hkv
          rcases add_utterance_mem render acc u hkv with rfl | hmem
          · exact hend
          · exact hutt kv hmem)

/-- The tier loop preserves the same invariants. -/
theorem tier_fold_end_zero (tok : String → List String)
    (render : ℚ → String) (oracle : String → WavInfo)
    (root : Option Speaker) :
    ∀ (tg : List InTier) (acc : File ℚ),
      acc.wav_path = none →
      (∀ ti ∈ tg, ∀ e ∈ ti.entries, 0 ≤ e.2.1) →
      (∀ kv ∈ acc.utterances, kv.2.end_ = some 0) →
      ((tg.foldl (loadTextGridTier tok render oracle root) acc).wav_path =
        none ∧
        ∀ kv ∈ (tg.foldl (loadTextGridTier tok render oracle root)
          acc).utterances, kv.2.end_ = some 0) := by
  intro tg
  induction tg with
  | nil =>
    intro acc hwav _ hutt
    exact ⟨hwav, hutt⟩
  | cons ti rest ih =>
    intro acc hwav hent hutt
    simp only [List.foldl_cons]
    have hrest : ∀ x ∈ rest, ∀ e ∈ x.entries, 0 ≤ e.2.1 :=
      fun x hx => hent x (List.mem_cons_of_mem _ hx)
    have hthis : ∀ e ∈ ti.entries, 0 ≤ e.2.1 :=
      hent ti (List.mem_cons_self _ _)
    rcases hn : (pyLower ti.name == "notes") with _ | _
    case true =>
      have hstep : loadTextGridTier tok render oracle root acc ti = acc := by
        simp [loadTextGridTier, hn]
      rw [hstep]
      exact ih acc hwav hrest hutt
    case false =>
      rcases hI : ti.isIntervalTier with _ | _
      case false =>
        have hstep : loadTextGridTier tok render oracle root acc ti = acc := by
          simp [loadTextGridTier, hn, hI]
        rw [hstep]
        exact ih acc hwav hrest hutt
      case true =>
        rcases root with _ | r
        · have hgoal : loadTextGridTier tok render oracle none acc ti =
              ti.entries.foldl
                (fun a e =>
                  match entryStep tok (File.durationVal oracle a)
                      ⟨pyStrip ti.name, none, none⟩ a.name e with
                  | some u => a.add_utterance render u
                  | none => a)
                (acc.add_speaker (some ⟨pyStrip ti.name, none, none⟩)) := by
            unfold loadTextGridTier
            rw [if_neg (by simp [hn]), if_neg (by simp [hI])]
          rw [hgoal]
          have hinner := entry_fold_end_zero tok render oracle
            ⟨pyStrip ti.name, none, none⟩ ti.entries
            (acc.add_speaker (some ⟨pyStrip ti.name, none, none⟩))
            (by rw [add_speaker_wav_path]; exact hwav) hthis
            (by rw [add_speaker_utterances]; exact hutt)
          exact ih _ hinner.1 hrest hinner.2
        · have hgoal : loadTextGridTier tok render oracle (some r) acc ti =
              ti.entries.foldl
                (fun a e =>
                  match entryStep tok (File.durationVal oracle a) r a.name e
                      with
                  | some u => a.add_utterance render u
                  | none => a)
                acc := by
            unfold loadTextGridTier
            rw [if_neg (by simp [hn]), if_neg (by simp [hI])]
          rw [hgoal]
          have hinner := entry_fold_end_zero tok render oracle r ti.entries
            acc hwav hthis hutt
          exact ih _ hinner.1 hrest hinner.2

/-- Claim C10.  A `File` with no audio path reports duration, channel count and
sample rate `0` without consulting the audio-info collaborator (the state is
unchanged); consequently a tiered annotation parsed for such a file has every
utterance's end boundary clamped to `0` by the `min`-with-duration step
(the raw ends being non-negative times). -/
theorem claim_C10_no_audio :
    (∀ (ν : Type) (oracle : String → WavInfo) (f : File ν),
      f.wav_path = none →
      f.durationVal oracle = 0 ∧ f.num_channelsVal oracle = 0 ∧
      f.sample_rateVal oracle = 0 ∧ f.durationSt oracle = (0, f)) ∧
    (∀ (tok : String → List String) (render : ℚ → String)
      (oracle : String → WavInfo) (f : File ℚ) (tg : List InTier)
      (root : Option Speaker) (f2 : File ℚ),
      f.wav_path = none → (∀ kv ∈ f.utterances, kv.2.end_ = some 0) →
      (∀ ti ∈ tg, ∀ e ∈ ti.entries, 0 ≤ e.2.1) →
      loadTextGrid tok render oracle f tg root = .ok f2 →
      ∀ kv ∈ f2.utterances, kv.2.end_ = some 0) := by
  constructor
  · intro ν oracle f h
    refine ⟨durationVal_of_no_wav oracle f h, ?_, ?_, ?_⟩
    · unfold File.num_channelsVal
      rw [h]
    · unfold File.sample_rateVal
      rw [h]
    · unfold File.durationSt
      rw [h]
  · intro tok render oracle f tg root f2 hwav hutt hent hload
    unfold loadTextGrid at hload
    by_cases h1 : tg.length = 0
    · rw [if_pos h1] at hload
      exact absurd hload (by simp)
    · rw [if_neg h1] at hload
      by_cases h2 : 2 < f.num_channelsVal oracle
      · rw [if_pos h2] at hload
        exact absurd hload (by simp)
      · rw [if_neg h2] at hload
        have hf2 : f2 = tg.foldl (loadTextGridTier tok render oracle root) f :=
          (Except.ok.inj hload).symm
        rw [hf2]
        exact (tier_fold_end_zero tok render oracle root tg f hwav hent
          hutt).2

/-- Claim C10 witness: both parts applied at concrete inputs (a text-only file;
a one-tier document). -/
theorem claim_C10_witness :
    File.durationVal (fun _ => ⟨9, 1, 1, "x", ""⟩)
      (⟨none, some "d/a.TextGrid", none, "a", none, none, [], [], false⟩ :
        File ℚ) = 0 ∧
    (∀ kv ∈ (⟨none, some "d/a.TextGrid", none, "a", none, none,
        [some ⟨"A", none, none⟩], [], false⟩ : File ℚ).utterances,
      kv.2.end_ = some 0) :=
  ⟨(claim_C10_no_audio.1 ℚ (fun _ => ⟨9, 1, 1, "x", ""⟩)
      (⟨none, some "d/a.TextGrid", none, "a", none, none, [], [], false⟩ :
        File ℚ) rfl).1,
    claim_C10_no_audio.2 (fun s => [s]) (fun _ => "0")
      (fun _ => ⟨9, 1, 1, "x", ""⟩)
      (⟨none, some "d/a.TextGrid", none, "a", none, none, [], [], false⟩ :
        File ℚ)
      [⟨"A", true, []⟩] none
      (⟨none, some "d/a.TextGrid", none, "a", none, none,
        [some ⟨"A", none, none⟩], [], false⟩ : File ℚ)
      rfl
      (by intro kv h; exact absurd h (List.not_mem_nil kv))
      (by
        intro ti hti e he
        rcases List.mem_singleton.mp hti with rfl
        exact absurd he (List.not_mem_nil e))
      rfl⟩

end MfaCorpus
